import Mathlib

/-!
# cloudflare-go: bot management and stream request/response mapping

A shallow embedding of `bot_management.go` (and of what `stream_test.go` exercises).

Conventions of the embedding.

* Go `string` values are Lean `String`s (valid Unicode text); response bodies are byte lists.
* A Go `*T` field is an `Option T`: `none` is the nil pointer.
* The receiver `api` and the argument `rc` are non-nil pointers.
* `context.Context` is passed through to the transport untouched and is not represented.
* `encoding/json` works in two layers.  The text layer (is this byte sequence JSON text, and
  which value does it denote) is a parameter `Decls.jsonParse`.  The value layer (which member
  goes to which struct field, what a `null` or a value of the wrong kind does) is written out
  here, driven by the struct tags of the source.
* Every operation runs in `Op`, a state monad over the list of observable events (transport
  calls, `json.Unmarshal` calls, file opens), so that "no network I/O" and "exactly one call"
  are statements about the event list an operation leaves behind.
-/

namespace Cloudflare

/-! ## Go values -/

/-- Response bodies and file contents: Go `[]byte`. -/
abbrev Bytes := List UInt8

/-- JSON values, as denoted by a JSON text.  A number keeps its literal; an object keeps its
members in document order, duplicates included, because the decoder visits them in order. -/
inductive Json where
  | null
  | bool (b : Bool)
  | number (literal : String)
  | string (s : String)
  | array (elems : List Json)
  | object (members : List (String × Json))

/-- Go `error` values.  `wrapError` is `*fmt.wrapError`, what `fmt.Errorf` builds for a format
with one `%w`; `UnmarshalTypeError` is `*json.UnmarshalTypeError` (without its byte offset);
`errorString` stands for every other error value, identified with its message. -/
inductive GoError where
  | errorString (s : String)
  | UnmarshalTypeError (value : String) (typ : String) (strct : String) (field : String)
  | wrapError (msg : String) (err : GoError)
  deriving DecidableEq, Repr

/-- The `Error()` method. -/
def GoError.Error : GoError → String
  | .errorString s => s
  | .UnmarshalTypeError value typ strct field =>
    if strct ≠ "" ∨ field ≠ "" then
      "json: cannot unmarshal " ++ value ++ " into Go struct field " ++ strct ++ "." ++ field
        ++ " of type " ++ typ
    else
      "json: cannot unmarshal " ++ value ++ " into Go value of type " ++ typ
  | .wrapError msg _ => msg

/-- The `Unwrap()` method, as `errors.Unwrap` sees it: only `*fmt.wrapError` has one. -/
def GoError.Unwrap : GoError → Option GoError
  | .wrapError _ err => some err
  | _ => none

/-- The call `fmt.Errorf("%s: %w", s, err)`. -/
def Errorf_s_w (s : String) (err : GoError) : GoError :=
  .wrapError (s ++ ": " ++ err.Error) err

/-- Modelled from the spec: the constant `errUnmarshalError` is declared in another file of the
package; the spec gives its text. -/
def errUnmarshalError : String := "unable to unmarshal response"

/-! ## net/http headers -/

/-- The type `http.Header`, a `map[string][]string`, as an association list without repeated
keys. -/
abbrev Header := List (String × List String)

/-- The bytes `textproto` accepts in a header field name (RFC 7230 token characters). -/
def validHeaderFieldByte (c : Char) : Bool :=
  let n := c.toNat
  (48 ≤ n && n ≤ 57) || (65 ≤ n && n ≤ 90) || (97 ≤ n && n ≤ 122) ||
    [33, 35, 36, 37, 38, 39, 42, 43, 45, 46, 94, 95, 96, 124, 126].contains n

/-- The canonicalisation loop of `textproto`: upper case at the start and after a hyphen,
lower case elsewhere. -/
def canonicalLoop : Bool → List Char → List Char
  | _, [] => []
  | upper, c :: cs =>
    let n := c.toNat
    let c1 :=
      if upper && 97 ≤ n && n ≤ 122 then Char.ofNat (n - 32)
      else if !upper && 65 ≤ n && n ≤ 90 then Char.ofNat (n + 32)
      else c
    c1 :: canonicalLoop (c1 == Char.ofNat 45) cs

/-- `textproto.CanonicalMIMEHeaderKey`: a key holding a byte that is not a token character is
returned unchanged. -/
def CanonicalMIMEHeaderKey (s : String) : String :=
  if s.toList.all validHeaderFieldByte then String.mk (canonicalLoop true s.toList) else s

/-- `Header.Set`: the entry of the canonical key is replaced by the single value. -/
def Header.Set (h : Header) (key value : String) : Header :=
  let k := CanonicalMIMEHeaderKey key
  (h.filter fun kv => kv.1 != k) ++ [(k, [value])]

/-! ## bot_management.go: data -/

/-- The struct `BotManagement`. -/
structure BotManagement where
  EnableJS : Option Bool := none
  FightMode : Option Bool := none
  SBFMDefinitelyAutomated : Option String := none
  SBFMLikelyAutomated : Option String := none
  SBFMVerifiedBots : Option String := none
  SBFMStaticResourceProtection : Option Bool := none
  OptimizeWordpress : Option Bool := none
  SuppressSessionScore : Option Bool := none
  AutoUpdateModel : Option Bool := none
  UsingLatestModel : Option Bool := none
  deriving DecidableEq, Repr

/-- The struct `UpdateBotManagementParams`. -/
structure UpdateBotManagementParams where
  EnableJS : Option Bool := none
  FightMode : Option Bool := none
  SBFMDefinitelyAutomated : Option String := none
  SBFMLikelyAutomated : Option String := none
  SBFMVerifiedBots : Option String := none
  SBFMStaticResourceProtection : Option Bool := none
  OptimizeWordpress : Option Bool := none
  SuppressSessionScore : Option Bool := none
  AutoUpdateModel : Option Bool := none
  deriving DecidableEq, Repr

/-- The type `ResourceContainer` is declared in another file; the operations read only its
`Identifier`. -/
structure ResourceContainer where
  Identifier : String
  deriving DecidableEq, Repr

/-! ## encoding/json: the value layer of the decoder -/

/-- How a decoding step ended: without error, with a first error recorded by `saveError`
(decoding goes on), or with an error that aborts the whole `Unmarshal` (what an `UnmarshalJSON`
method returns). -/
inductive Status where
  | ok
  | saved (e : GoError)
  | fatal (e : GoError)
  deriving DecidableEq, Repr

/-- The status after a step that ended in `s` is followed by one that ended in `t`: the first
saved error is kept, an aborting error takes over. -/
def Status.andThen : Status → Status → Status
  | .ok, t => t
  | .saved _, .fatal f => .fatal f
  | .saved e, _ => .saved e
  | .fatal e, _ => .fatal e

/-- The error `json.Unmarshal` returns once the value is decoded. -/
def Status.err : Status → Option GoError
  | .ok => none
  | .saved e => some e
  | .fatal e => some e

/-- The decoder's `errorContext`: the struct being decoded and the path of field names. -/
structure ErrorContext where
  strct : String
  fieldStack : List String

/-- The context while the field `name` of struct type `strct` is decoded. -/
def ErrorContext.field (c : ErrorContext) (strct name : String) : ErrorContext :=
  { strct := strct, fieldStack := c.fieldStack ++ [name] }

/-- The type error the decoder saves, `addErrorContext` applied. -/
def typeError (c : ErrorContext) (value typ : String) : GoError :=
  .UnmarshalTypeError value typ c.strct (".".intercalate c.fieldStack)

/-- The word `UnmarshalTypeError.Value` uses for a JSON value. -/
def Json.kind : Json → String
  | .null => "null"
  | .bool _ => "bool"
  | .number _ => "number"
  | .string _ => "string"
  | .array _ => "array"
  | .object _ => "object"

/-- One rune of `foldName`: ASCII letters go to upper case, and the two non-ASCII runes whose
simple-fold orbit holds an ASCII letter (U+017F, U+212A) go to `S` and `K`.  Every other
non-ASCII rune folds to a non-ASCII rune; it is left as it is, which makes no difference to a
comparison with the ASCII names of the struct tags. -/
def foldRune (c : Char) : Char :=
  let n := c.toNat
  if 97 ≤ n ∧ n ≤ 122 then Char.ofNat (n - 32)
  else if n = 0x17F then Char.ofNat 83
  else if n = 0x212A then Char.ofNat 75
  else c

/-- The case-folded form of a member name. -/
def foldName (s : String) : List Char := s.toList.map foldRune

/-- The field a member name selects: the field of exactly that name, else the first field whose
name matches it under case folding, else none (the member is skipped). -/
def fieldByName {φ : Type} (fields : List (String × φ)) (key : String) : Option φ :=
  match fields.find? fun f => f.1 == key with
  | some f => some f.2
  | none => (fields.find? fun f => foldName f.1 == foldName key).map Prod.snd

/-- Decoding into a `*bool` field: `null` sets the pointer to nil; any other value allocates the
pointer when it is nil, then stores a boolean or saves a type error. -/
def decodeBoolPtr (c : ErrorContext) (j : Json) (cur : Option Bool) : Option Bool × Status :=
  match j with
  | .null => (none, .ok)
  | .bool b => (some b, .ok)
  | j => (some (cur.getD false), .saved (typeError c j.kind "bool"))

/-- Decoding into a `*string` field. -/
def decodeStringPtr (c : ErrorContext) (j : Json) (cur : Option String) :
    Option String × Status :=
  match j with
  | .null => (none, .ok)
  | .string s => (some s, .ok)
  | j => (some (cur.getD ""), .saved (typeError c j.kind "string"))

/-- Decoding into a `bool` field: `null` leaves it alone. -/
def decodeBool (c : ErrorContext) (j : Json) (cur : Bool) : Bool × Status :=
  match j with
  | .null => (cur, .ok)
  | .bool b => (b, .ok)
  | j => (cur, .saved (typeError c j.kind "bool"))

/-- The members of an object are visited in document order; each goes through `step`, and an
aborting error stops the visit. -/
def decodeMembers {σ : Type} (step : String → Json → σ → σ × Status) :
    List (String × Json) → σ → σ × Status
  | [], v => (v, .ok)
  | (k, j) :: rest, v =>
    match step k j v with
    | (v1, .fatal e) => (v1, .fatal e)
    | (v1, s) =>
      let r := decodeMembers step rest v1
      (r.1, s.andThen r.2)

/-- Decoding into a struct value: `null` is a no-op, an object is decoded member by member, every
other value is a type error that leaves the struct alone. -/
def decodeStruct {σ : Type} (c : ErrorContext) (typ : String)
    (step : String → Json → σ → σ × Status) (j : Json) (v : σ) : σ × Status :=
  match j with
  | .null => (v, .ok)
  | .object ms => decodeMembers step ms v
  | j => (v, .saved (typeError c j.kind typ))

/-- The elements of an array are decoded in order, element `i` into the element the slice
already has at `i`, or into a zero value past its length; the slice ends up as long as the
array. -/
def decodeElems {α : Type} (zero : α) (dec : Json → α → α × Status) :
    List Json → List α → List α × Status
  | [], _ => ([], .ok)
  | j :: js, cur =>
    match dec j (cur.headD zero) with
    | (a, .fatal e) => (a :: cur.tail, .fatal e)
    | (a, s) =>
      let r := decodeElems zero dec js cur.tail
      (a :: r.1, s.andThen r.2)

/-- Decoding into a slice: `null` sets it to nil (the empty list), an array is decoded element by
element, every other value is a type error. -/
def decodeSlice {α : Type} (c : ErrorContext) (typ : String) (zero : α)
    (dec : Json → α → α × Status) (j : Json) (cur : List α) : List α × Status :=
  match j with
  | .null => ([], .ok)
  | .array js => decodeElems zero dec js cur
  | j => (cur, .saved (typeError c j.kind typ))

/-! ## Declarations of the package that live in other files -/

/-- What the operations use and another file of the package (or the standard library) declares:
the pagination struct `ResultInfo`, the element type `ResponseInfo` of the envelope's `errors`
and `messages` lists, the resource type `StreamVideo` and its siblings, each with its zero value
and its JSON decoder (the JSON value, the Go value decoded into, the resulting value and how
decoding ended); the sentinel errors of parameter validation; and the text layer of
`encoding/json`, which either rejects a byte sequence with a parse error or yields the JSON value
it denotes. -/
structure Decls where
  ResultInfo : Type
  zeroResultInfo : ResultInfo
  unmarshalResultInfo : Json → ResultInfo → ResultInfo × Status
  ResponseInfo : Type
  zeroResponseInfo : ResponseInfo
  unmarshalResponseInfo : Json → ResponseInfo → ResponseInfo × Status
  StreamVideo : Type
  zeroStreamVideo : StreamVideo
  unmarshalStreamVideo : Json → StreamVideo → StreamVideo × Status
  StreamVideoCreate : Type
  zeroStreamVideoCreate : StreamVideoCreate
  unmarshalStreamVideoCreate : Json → StreamVideoCreate → StreamVideoCreate × Status
  ErrMissingAccountID : GoError
  ErrMissingVideoID : GoError
  ErrMissingUploadURL : GoError
  ErrMissingFilePath : GoError
  ErrMissingMaxDuration : GoError
  jsonParse : Bytes → Except GoError Json

/-! ## The response envelope -/

/-- Modelled from the spec: the embedded struct `Response` is declared in another file; the spec
names its content (a success flag, error and message lists) and the fixtures of
`stream_test.go` give the member names `success`, `errors`, `messages`. -/
structure Response (D : Decls) where
  Success : Bool
  Errors : List D.ResponseInfo
  Messages : List D.ResponseInfo

/-- The value `Response{}`. -/
def Response.zero (D : Decls) : Response D :=
  { Success := false, Errors := [], Messages := [] }

/-- The fields of `BotManagement` with their JSON names, in declaration order. -/
inductive BotManagementField where
  | EnableJS
  | FightMode
  | SBFMDefinitelyAutomated
  | SBFMLikelyAutomated
  | SBFMVerifiedBots
  | SBFMStaticResourceProtection
  | OptimizeWordpress
  | SuppressSessionScore
  | AutoUpdateModel
  | UsingLatestModel
  deriving DecidableEq, Repr

/-- The struct tags of `BotManagement`. -/
def botManagementFields : List (String × BotManagementField) :=
  [("enable_js", .EnableJS), ("fight_mode", .FightMode),
   ("sbfm_definitely_automated", .SBFMDefinitelyAutomated),
   ("sbfm_likely_automated", .SBFMLikelyAutomated),
   ("sbfm_verified_bots", .SBFMVerifiedBots),
   ("sbfm_static_resource_protection", .SBFMStaticResourceProtection),
   ("optimize_wordpress", .OptimizeWordpress),
   ("suppress_session_score", .SuppressSessionScore),
   ("auto_update_model", .AutoUpdateModel),
   ("using_latest_model", .UsingLatestModel)]

/-- One member of a JSON object decoded into a `BotManagement`. -/
def BotManagement.decodeMember (c : ErrorContext) (key : String) (j : Json)
    (v : BotManagement) : BotManagement × Status :=
  match fieldByName botManagementFields key with
  | none => (v, .ok)
  | some .EnableJS =>
    let r := decodeBoolPtr (c.field "BotManagement" "enable_js") j v.EnableJS
    ({ v with EnableJS := r.1 }, r.2)
  | some .FightMode =>
    let r := decodeBoolPtr (c.field "BotManagement" "fight_mode") j v.FightMode
    ({ v with FightMode := r.1 }, r.2)
  | some .SBFMDefinitelyAutomated =>
    let r := decodeStringPtr (c.field "BotManagement" "sbfm_definitely_automated") j
      v.SBFMDefinitelyAutomated
    ({ v with SBFMDefinitelyAutomated := r.1 }, r.2)
  | some .SBFMLikelyAutomated =>
    let r := decodeStringPtr (c.field "BotManagement" "sbfm_likely_automated") j
      v.SBFMLikelyAutomated
    ({ v with SBFMLikelyAutomated := r.1 }, r.2)
  | some .SBFMVerifiedBots =>
    let r := decodeStringPtr (c.field "BotManagement" "sbfm_verified_bots") j v.SBFMVerifiedBots
    ({ v with SBFMVerifiedBots := r.1 }, r.2)
  | some .SBFMStaticResourceProtection =>
    let r := decodeBoolPtr (c.field "BotManagement" "sbfm_static_resource_protection") j
      v.SBFMStaticResourceProtection
    ({ v with SBFMStaticResourceProtection := r.1 }, r.2)
  | some .OptimizeWordpress =>
    let r := decodeBoolPtr (c.field "BotManagement" "optimize_wordpress") j v.OptimizeWordpress
    ({ v with OptimizeWordpress := r.1 }, r.2)
  | some .SuppressSessionScore =>
    let r := decodeBoolPtr (c.field "BotManagement" "suppress_session_score") j
      v.SuppressSessionScore
    ({ v with SuppressSessionScore := r.1 }, r.2)
  | some .AutoUpdateModel =>
    let r := decodeBoolPtr (c.field "BotManagement" "auto_update_model") j v.AutoUpdateModel
    ({ v with AutoUpdateModel := r.1 }, r.2)
  | some .UsingLatestModel =>
    let r := decodeBoolPtr (c.field "BotManagement" "using_latest_model") j v.UsingLatestModel
    ({ v with UsingLatestModel := r.1 }, r.2)

/-- A JSON value decoded into a `BotManagement`. -/
def BotManagement.decode (c : ErrorContext) (j : Json) (v : BotManagement) :
    BotManagement × Status :=
  decodeStruct c "cloudflare.BotManagement" (BotManagement.decodeMember c) j v

/-- The fields an envelope struct has: its own `result` and, where present, `result_info`, and
the three promoted from the embedded `Response`. -/
inductive EnvelopeField where
  | Result
  | Success
  | Errors
  | Messages
  | ResultInfo
  deriving DecidableEq, Repr

/-- A member of the envelope that goes to a field promoted from `Response`. -/
def Response.decodeField (D : Decls) (c : ErrorContext) (strct : String) :
    EnvelopeField → Json → Response D → Response D × Status
  | .Success, j, v =>
    let r := decodeBool (c.field strct "success") j v.Success
    ({ v with Success := r.1 }, r.2)
  | .Errors, j, v =>
    let r := decodeSlice (c.field strct "errors") "[]cloudflare.ResponseInfo" D.zeroResponseInfo
      D.unmarshalResponseInfo j v.Errors
    ({ v with Errors := r.1 }, r.2)
  | .Messages, j, v =>
    let r := decodeSlice (c.field strct "messages") "[]cloudflare.ResponseInfo"
      D.zeroResponseInfo D.unmarshalResponseInfo j v.Messages
    ({ v with Messages := r.1 }, r.2)
  | _, _, v => (v, .ok)

/-- The struct `BotManagementResponse`: `Result`, the embedded `Response`, and the embedded
`ResultInfo`, which its tag turns into the named field `result_info`. -/
structure BotManagementResponse (D : Decls) where
  Result : BotManagement
  Response : Response D
  ResultInfo : D.ResultInfo

/-- The value a `var asResponse BotManagementResponse` starts with. -/
def BotManagementResponse.zero (D : Decls) : BotManagementResponse D :=
  { Result := {}, Response := Response.zero D, ResultInfo := D.zeroResultInfo }

/-- The JSON names of the fields of `BotManagementResponse`, in index order. -/
def botManagementResponseFields : List (String × EnvelopeField) :=
  [("result", .Result), ("success", .Success), ("errors", .Errors), ("messages", .Messages),
   ("result_info", .ResultInfo)]

/-- One member of a JSON object decoded into a `BotManagementResponse`. -/
def BotManagementResponse.decodeMember (D : Decls) (c : ErrorContext) (key : String) (j : Json)
    (v : BotManagementResponse D) : BotManagementResponse D × Status :=
  match fieldByName botManagementResponseFields key with
  | none => (v, .ok)
  | some .Result =>
    let r := BotManagement.decode (c.field "BotManagementResponse" "result") j v.Result
    ({ v with Result := r.1 }, r.2)
  | some .ResultInfo =>
    let r := D.unmarshalResultInfo j v.ResultInfo
    ({ v with ResultInfo := r.1 }, r.2)
  | some f =>
    let r := Response.decodeField D c "BotManagementResponse" f j v.Response
    ({ v with Response := r.1 }, r.2)

/-- A JSON value decoded into a `BotManagementResponse`, as `json.Unmarshal` does with the
pointer `&asResponse`. -/
def BotManagementResponse.decode (D : Decls) (j : Json) (v : BotManagementResponse D) :
    BotManagementResponse D × Status :=
  decodeStruct ⟨"", []⟩ "cloudflare.BotManagementResponse"
    (BotManagementResponse.decodeMember D ⟨"", []⟩) j v

/-! ## encoding/json: the value layer of the encoder -/

/-- A pointer field tagged `omitempty`: no member when the pointer is nil, else the member with
the encoding of the value pointed to. -/
def omitemptyPtr {α : Type} (name : String) (enc : α → Json) : Option α → List (String × Json)
  | none => []
  | some a => [(name, enc a)]

/-- The JSON value `json.Marshal` produces for an `UpdateBotManagementParams`, from its struct
tags: one member per non-nil field, in declaration order. -/
def UpdateBotManagementParams.marshal (p : UpdateBotManagementParams) : Json :=
  .object
    (omitemptyPtr "enable_js" Json.bool p.EnableJS ++
     omitemptyPtr "fight_mode" Json.bool p.FightMode ++
     omitemptyPtr "sbfm_definitely_automated" Json.string p.SBFMDefinitelyAutomated ++
     omitemptyPtr "sbfm_likely_automated" Json.string p.SBFMLikelyAutomated ++
     omitemptyPtr "sbfm_verified_bots" Json.string p.SBFMVerifiedBots ++
     omitemptyPtr "sbfm_static_resource_protection" Json.bool p.SBFMStaticResourceProtection ++
     omitemptyPtr "optimize_wordpress" Json.bool p.OptimizeWordpress ++
     omitemptyPtr "suppress_session_score" Json.bool p.SuppressSessionScore ++
     omitemptyPtr "auto_update_model" Json.bool p.AutoUpdateModel)

/-! ## Stream parameter structs (fields as `stream_test.go` uses them) -/

/-- The struct `StreamUploadFromURLParameters`. -/
structure StreamUploadFromURLParameters where
  AccountID : String := ""
  URL : String := ""
  Meta : List (String × Json) := []

/-- The struct `StreamUploadFileParameters`. -/
structure StreamUploadFileParameters where
  AccountID : String := ""
  VideoID : String := ""
  FilePath : String := ""

/-- The struct `StreamCreateVideoParameters`. -/
structure StreamCreateVideoParameters where
  AccountID : String := ""
  MaxDurationSeconds : Int := 0
  Meta : List (String × Json) := []

/-- The struct `StreamListParameters`. -/
structure StreamListParameters where
  AccountID : String := ""

/-- The struct `StreamParameters`. -/
structure StreamParameters where
  AccountID : String := ""
  VideoID : String := ""

/-- The struct `StreamVideoNFTParameters`. -/
structure StreamVideoNFTParameters where
  AccountID : String := ""
  VideoID : String := ""
  Contract : String := ""
  Token : Int := 0

/-- The struct `StreamSignedURLParameters`. -/
structure StreamSignedURLParameters where
  AccountID : String := ""
  VideoID : String := ""

/-! ## Requests, events, operations -/

/-- The `params interface{}` argument of the transport: nil, or the parameter struct the
transport serialises as the request body (for the file upload, with the bytes of the file). -/
inductive Params where
  | nil
  | updateBotManagement (p : UpdateBotManagementParams)
  | streamUploadFromURL (p : StreamUploadFromURLParameters)
  | streamUploadFile (p : StreamUploadFileParameters) (file : Bytes)
  | streamCreateVideo (p : StreamCreateVideoParameters)
  | streamVideoNFT (p : StreamVideoNFTParameters)
  | streamSignedURL (p : StreamSignedURLParameters)

/-- What one transport call is given: method, URI, params and extra headers. -/
structure Request where
  method : String
  uri : String
  params : Params
  headers : Header

/-- What an operation does that is visible outside it. -/
inductive Event where
  | transportCall (req : Request)
  | jsonUnmarshal (data : Bytes)
  | fileOpen (path : String)

/-- Operations thread the list of events so far. -/
abbrev Op (α : Type) := StateM (List Event) α

/-- Record one event. -/
def emit (e : Event) : Op Unit :=
  modify fun es => es ++ [e]

/-- The events and the returned value of an operation started on an empty event list. -/
def Op.exec {α : Type} (op : Op α) : α × List Event :=
  op.run []

/-- The transport calls among the events. -/
def transportCalls : List Event → List Request
  | [] => []
  | .transportCall r :: es => r :: transportCalls es
  | _ :: es => transportCalls es

/-- The `json.Unmarshal` calls among the events. -/
def unmarshalCalls : List Event → List Bytes
  | [] => []
  | .jsonUnmarshal b :: es => b :: unmarshalCalls es
  | _ :: es => unmarshalCalls es

/-- The client `API`, as far as the operations use it: the transport (`do(method, path, body,
headers) -> bytes | error`), declared in another file, and the local file system the upload
reads from. -/
structure API where
  transport : Request → Except GoError Bytes
  openFile : String → Except GoError Bytes

/-- The method `api.makeRequestContextWithHeaders`: one transport call. -/
def API.makeRequestContextWithHeaders (api : API) (method uri : String) (params : Params)
    (headers : Header) : Op (Except GoError Bytes) := do
  let req : Request := { method := method, uri := uri, params := params, headers := headers }
  emit (.transportCall req)
  pure (api.transport req)

/-- Modelled from the spec: the method `api.makeRequestContext` is the transport call without
extra headers. -/
def API.makeRequestContext (api : API) (method uri : String) (params : Params) :
    Op (Except GoError Bytes) :=
  api.makeRequestContextWithHeaders method uri params []

/-- What `json.Unmarshal(data, &v)` leaves in `v` and returns: the text layer rejects `data`
with a parse error and `v` is left alone, or it yields the JSON value, which the value layer
`dec` decodes into `v`. -/
def jsonDecode (D : Decls) {σ : Type} (dec : Json → σ → σ × Status) (data : Bytes) (v : σ) :
    σ × Option GoError :=
  match D.jsonParse data with
  | .error e => (v, some e)
  | .ok j =>
    let r := dec j v
    (r.1, r.2.err)

/-- The call `json.Unmarshal(data, &v)`. -/
def jsonUnmarshal (D : Decls) {σ : Type} (dec : Json → σ → σ × Status) (data : Bytes) (v : σ) :
    Op (σ × Option GoError) := do
  emit (.jsonUnmarshal data)
  pure (jsonDecode D dec data v)

/-- The constant `http.MethodGet`. -/
def MethodGet : String := "GET"

/-- The constant `http.MethodPut`. -/
def MethodPut : String := "PUT"

/-- The constant `http.MethodPost`. -/
def MethodPost : String := "POST"

/-- The constant `http.MethodDelete`. -/
def MethodDelete : String := "DELETE"

/-! ## bot_management.go: operations -/

/-- The function `botV2Header`. -/
def botV2Header : Header :=
  let header : Header := []
  header.Set "Cloudflare-Version" "2.0.0"

/-- The method `GetBotManagement`. -/
def GetBotManagement (D : Decls) (api : API) (rc : ResourceContainer) :
    Op (BotManagement × D.ResultInfo × Option GoError) := do
  let uri := "/zones/" ++ rc.Identifier ++ "/bot_management"
  match ← api.makeRequestContextWithHeaders MethodGet uri .nil botV2Header with
  | .error err => return ({}, D.zeroResultInfo, some err)
  | .ok res =>
    let (asResponse, err) ←
      jsonUnmarshal D (BotManagementResponse.decode D) res (BotManagementResponse.zero D)
    match err with
    | some err => return ({}, D.zeroResultInfo, some (Errorf_s_w errUnmarshalError err))
    | none => return (asResponse.Result, asResponse.ResultInfo, none)

/-- The method `UpdateBotManagement`. -/
def UpdateBotManagement (D : Decls) (api : API) (rc : ResourceContainer)
    (params : UpdateBotManagementParams) : Op (BotManagement × Option GoError) := do
  let uri := "/zones/" ++ rc.Identifier ++ "/bot_management"
  match ← api.makeRequestContextWithHeaders MethodPut uri (.updateBotManagement params)
      botV2Header with
  | .error err => return ({}, some err)
  | .ok res =>
    let (bmResponse, err) ←
      jsonUnmarshal D (BotManagementResponse.decode D) res (BotManagementResponse.zero D)
    match err with
    | some err => return ({}, some (Errorf_s_w errUnmarshalError err))
    | none => return (bmResponse.Result, none)

/-- Modelled from the spec: the transport is declared in another file; the spec has it send, as
the body of a request with non-nil params, the JSON encoding of the parameter struct with absent
optional fields omitted.  For `UpdateBotManagementParams` that encoding follows the struct tags
of `bot_management.go`; the encodings of the other parameter structs are not described here. -/
def botManagementBody : Params → Option Json
  | .updateBotManagement p => some p.marshal
  | _ => none

/-! ## Stream operations

The file that declares them is not part of the sources at hand; `stream_test.go` is.  Each
operation below follows the spec's facade (validate, build the request, call the transport once,
decode), with the method, the path and the validation errors its test expects. -/

/-- Modelled from the spec: the envelope of a single-resource stream response, `Response` and a
`result` that is one `StreamVideo`. -/
structure StreamVideoResponse (D : Decls) where
  Response : Response D
  Result : D.StreamVideo

/-- Modelled from the spec: the envelope of a list response, whose `result` is a sequence of
`StreamVideo`. -/
structure StreamListResponse (D : Decls) where
  Response : Response D
  Result : List D.StreamVideo

/-- Modelled from the spec: the envelope of the direct-upload response. -/
structure StreamVideoCreateResponse (D : Decls) where
  Response : Response D
  Result : D.StreamVideoCreate

/-- Modelled from the spec: the envelope of the signed-URL response, whose `result` holds the
member `token`. -/
structure StreamSignedURLResponse (D : Decls) where
  Response : Response D
  Token : String

/-- Modelled from the spec: the JSON names of the fields of a stream envelope, as the fixtures
of `stream_test.go` spell them. -/
def streamResponseFields : List (String × EnvelopeField) :=
  [("success", .Success), ("errors", .Errors), ("messages", .Messages), ("result", .Result)]

/-- Modelled from the spec: one member of a JSON object decoded into a `StreamVideoResponse`
(declared in another file). -/
def StreamVideoResponse.decodeMember (D : Decls) (c : ErrorContext) (key : String) (j : Json)
    (v : StreamVideoResponse D) : StreamVideoResponse D × Status :=
  match fieldByName streamResponseFields key with
  | none => (v, .ok)
  | some .Result =>
    let r := D.unmarshalStreamVideo j v.Result
    ({ v with Result := r.1 }, r.2)
  | some f =>
    let r := Response.decodeField D c "StreamVideoResponse" f j v.Response
    ({ v with Response := r.1 }, r.2)

/-- Modelled from the spec: a JSON value decoded into a `StreamVideoResponse` (declared in
another file). -/
def StreamVideoResponse.decode (D : Decls) (j : Json) (v : StreamVideoResponse D) :
    StreamVideoResponse D × Status :=
  decodeStruct ⟨"", []⟩ "cloudflare.StreamVideoResponse"
    (StreamVideoResponse.decodeMember D ⟨"", []⟩) j v

/-- Modelled from the spec: one member of a JSON object decoded into a `StreamListResponse`
(declared in another file). -/
def StreamListResponse.decodeMember (D : Decls) (c : ErrorContext) (key : String) (j : Json)
    (v : StreamListResponse D) : StreamListResponse D × Status :=
  match fieldByName streamResponseFields key with
  | none => (v, .ok)
  | some .Result =>
    let r := decodeSlice (c.field "StreamListResponse" "result") "[]cloudflare.StreamVideo"
      D.zeroStreamVideo D.unmarshalStreamVideo j v.Result
    ({ v with Result := r.1 }, r.2)
  | some f =>
    let r := Response.decodeField D c "StreamListResponse" f j v.Response
    ({ v with Response := r.1 }, r.2)

/-- Modelled from the spec: a JSON value decoded into a `StreamListResponse` (declared in
another file). -/
def StreamListResponse.decode (D : Decls) (j : Json) (v : StreamListResponse D) :
    StreamListResponse D × Status :=
  decodeStruct ⟨"", []⟩ "cloudflare.StreamListResponse"
    (StreamListResponse.decodeMember D ⟨"", []⟩) j v

/-- Modelled from the spec: one member of a JSON object decoded into a
`StreamVideoCreateResponse` (declared in another file). -/
def StreamVideoCreateResponse.decodeMember (D : Decls) (c : ErrorContext) (key : String)
    (j : Json) (v : StreamVideoCreateResponse D) : StreamVideoCreateResponse D × Status :=
  match fieldByName streamResponseFields key with
  | none => (v, .ok)
  | some .Result =>
    let r := D.unmarshalStreamVideoCreate j v.Result
    ({ v with Result := r.1 }, r.2)
  | some f =>
    let r := Response.decodeField D c "StreamVideoCreateResponse" f j v.Response
    ({ v with Response := r.1 }, r.2)

/-- Modelled from the spec: a JSON value decoded into a `StreamVideoCreateResponse` (declared in
another file). -/
def StreamVideoCreateResponse.decode (D : Decls) (j : Json) (v : StreamVideoCreateResponse D) :
    StreamVideoCreateResponse D × Status :=
  decodeStruct ⟨"", []⟩ "cloudflare.StreamVideoCreateResponse"
    (StreamVideoCreateResponse.decodeMember D ⟨"", []⟩) j v

/-- Modelled from the spec: the member `token` of the signed-URL result, decoded into a `string`
field. -/
def decodeTokenMember (c : ErrorContext) (key : String) (j : Json) (cur : String) :
    String × Status :=
  match fieldByName [("token", ())] key with
  | none => (cur, .ok)
  | some _ =>
    match j with
    | .null => (cur, .ok)
    | .string s => (s, .ok)
    | j => (cur, .saved (typeError (c.field "" "token") j.kind "string"))

/-- Modelled from the spec: one member of a JSON object decoded into a
`StreamSignedURLResponse` (declared in another file). -/
def StreamSignedURLResponse.decodeMember (D : Decls) (c : ErrorContext) (key : String)
    (j : Json) (v : StreamSignedURLResponse D) : StreamSignedURLResponse D × Status :=
  match fieldByName streamResponseFields key with
  | none => (v, .ok)
  | some .Result =>
    let c1 := c.field "StreamSignedURLResponse" "result"
    let r := decodeStruct c1 "struct" (decodeTokenMember c1) j v.Token
    ({ v with Token := r.1 }, r.2)
  | some f =>
    let r := Response.decodeField D c "StreamSignedURLResponse" f j v.Response
    ({ v with Response := r.1 }, r.2)

/-- Modelled from the spec: a JSON value decoded into a `StreamSignedURLResponse` (declared in
another file). -/
def StreamSignedURLResponse.decode (D : Decls) (j : Json) (v : StreamSignedURLResponse D) :
    StreamSignedURLResponse D × Status :=
  decodeStruct ⟨"", []⟩ "cloudflare.StreamSignedURLResponse"
    (StreamSignedURLResponse.decodeMember D ⟨"", []⟩) j v

/-- Modelled from the spec: after validation, a single-resource operation calls the transport
once, passes a transport error on unchanged, wraps a decode error, and otherwise returns the
`StreamVideo` under `result`. -/
def streamVideoCall (D : Decls) (api : API) (method uri : String) (params : Params) :
    Op (D.StreamVideo × Option GoError) := do
  match ← api.makeRequestContext method uri params with
  | .error err => return (D.zeroStreamVideo, some err)
  | .ok res =>
    let (r, err) ← jsonUnmarshal D (StreamVideoResponse.decode D) res
      { Response := Response.zero D, Result := D.zeroStreamVideo }
    match err with
    | some err => return (D.zeroStreamVideo, some (Errorf_s_w errUnmarshalError err))
    | none => return (r.Result, none)

/-- Modelled from the spec: `StreamUploadFromURL` (declared in another file) requires the account
identifier, then the upload URL, and posts to `/accounts/<id>/stream/copy`. -/
def StreamUploadFromURL (D : Decls) (api : API) (params : StreamUploadFromURLParameters) :
    Op (D.StreamVideo × Option GoError) := do
  if params.AccountID = "" then
    return (D.zeroStreamVideo, some D.ErrMissingAccountID)
  else if params.URL = "" then
    return (D.zeroStreamVideo, some D.ErrMissingUploadURL)
  else
    streamVideoCall D api MethodPost ("/accounts/" ++ params.AccountID ++ "/stream/copy")
      (.streamUploadFromURL params)

/-- Modelled from the spec: `StreamUploadVideoFile` (declared in another file) requires the
account identifier, then the file path, opens the local file (a failure to open it is returned as
it is, not as a transport error), and posts the file to `/accounts/<id>/stream`. -/
def StreamUploadVideoFile (D : Decls) (api : API) (params : StreamUploadFileParameters) :
    Op (D.StreamVideo × Option GoError) := do
  if params.AccountID = "" then
    return (D.zeroStreamVideo, some D.ErrMissingAccountID)
  else if params.FilePath = "" then
    return (D.zeroStreamVideo, some D.ErrMissingFilePath)
  else
    emit (.fileOpen params.FilePath)
    match api.openFile params.FilePath with
    | .error err => return (D.zeroStreamVideo, some err)
    | .ok file =>
      streamVideoCall D api MethodPost ("/accounts/" ++ params.AccountID ++ "/stream")
        (.streamUploadFile params file)

/-- Modelled from the spec: `StreamCreateVideoDirectURL` (declared in another file) requires the
account identifier, then a non-zero maximum duration, and posts to
`/accounts/<id>/stream/direct_upload`. -/
def StreamCreateVideoDirectURL (D : Decls) (api : API) (params : StreamCreateVideoParameters) :
    Op (D.StreamVideoCreate × Option GoError) := do
  if params.AccountID = "" then
    return (D.zeroStreamVideoCreate, some D.ErrMissingAccountID)
  else if params.MaxDurationSeconds = 0 then
    return (D.zeroStreamVideoCreate, some D.ErrMissingMaxDuration)
  else
    match ← api.makeRequestContext MethodPost
        ("/accounts/" ++ params.AccountID ++ "/stream/direct_upload")
        (.streamCreateVideo params) with
    | .error err => return (D.zeroStreamVideoCreate, some err)
    | .ok res =>
      let (r, err) ← jsonUnmarshal D (StreamVideoCreateResponse.decode D) res
        { Response := Response.zero D, Result := D.zeroStreamVideoCreate }
      match err with
      | some err => return (D.zeroStreamVideoCreate, some (Errorf_s_w errUnmarshalError err))
      | none => return (r.Result, none)

/-- Modelled from the spec: `StreamListVideos` (declared in another file) requires the account
identifier, gets `/accounts/<id>/stream` and returns the sequence under `result`. -/
def StreamListVideos (D : Decls) (api : API) (params : StreamListParameters) :
    Op (List D.StreamVideo × Option GoError) := do
  if params.AccountID = "" then
    return ([], some D.ErrMissingAccountID)
  else
    match ← api.makeRequestContext MethodGet ("/accounts/" ++ params.AccountID ++ "/stream")
        .nil with
    | .error err => return ([], some err)
    | .ok res =>
      let (r, err) ← jsonUnmarshal D (StreamListResponse.decode D) res
        { Response := Response.zero D, Result := [] }
      match err with
      | some err => return ([], some (Errorf_s_w errUnmarshalError err))
      | none => return (r.Result, none)

/-- Modelled from the spec: `StreamGetVideo` (declared in another file) requires the account
identifier, then the video identifier, and gets `/accounts/<id>/stream/<video>`. -/
def StreamGetVideo (D : Decls) (api : API) (options : StreamParameters) :
    Op (D.StreamVideo × Option GoError) := do
  if options.AccountID = "" then
    return (D.zeroStreamVideo, some D.ErrMissingAccountID)
  else if options.VideoID = "" then
    return (D.zeroStreamVideo, some D.ErrMissingVideoID)
  else
    streamVideoCall D api MethodGet
      ("/accounts/" ++ options.AccountID ++ "/stream/" ++ options.VideoID) .nil

/-- Modelled from the spec: `StreamDeleteVideo` (declared in another file) requires the account
identifier, then the video identifier, sends DELETE to `/accounts/<id>/stream/<video>` and
returns the transport's error, if any. -/
def StreamDeleteVideo (D : Decls) (api : API) (options : StreamParameters) :
    Op (Option GoError) := do
  if options.AccountID = "" then
    return some D.ErrMissingAccountID
  else if options.VideoID = "" then
    return some D.ErrMissingVideoID
  else
    match ← api.makeRequestContext MethodDelete
        ("/accounts/" ++ options.AccountID ++ "/stream/" ++ options.VideoID) .nil with
    | .error err => return some err
    | .ok _ => return none

/-- Modelled from the spec: `StreamEmbedHTML` (declared in another file) requires the account
identifier, then the video identifier, gets `/accounts/<id>/stream/<video>/embed` and returns
the raw body as a string (the bytes of the body), without JSON decoding. -/
def StreamEmbedHTML (D : Decls) (api : API) (options : StreamParameters) :
    Op (Bytes × Option GoError) := do
  if options.AccountID = "" then
    return ([], some D.ErrMissingAccountID)
  else if options.VideoID = "" then
    return ([], some D.ErrMissingVideoID)
  else
    match ← api.makeRequestContext MethodGet
        ("/accounts/" ++ options.AccountID ++ "/stream/" ++ options.VideoID ++ "/embed")
        .nil with
    | .error err => return ([], some err)
    | .ok res => return (res, none)

/-- Modelled from the spec: `StreamAssociateNFT` (declared in another file) requires the account
identifier, then the video identifier, and posts to `/accounts/<id>/stream/<video>`. -/
def StreamAssociateNFT (D : Decls) (api : API) (options : StreamVideoNFTParameters) :
    Op (D.StreamVideo × Option GoError) := do
  if options.AccountID = "" then
    return (D.zeroStreamVideo, some D.ErrMissingAccountID)
  else if options.VideoID = "" then
    return (D.zeroStreamVideo, some D.ErrMissingVideoID)
  else
    streamVideoCall D api MethodPost
      ("/accounts/" ++ options.AccountID ++ "/stream/" ++ options.VideoID)
      (.streamVideoNFT options)

/-- Modelled from the spec: `StreamCreateSignedURL` (declared in another file) requires the
account identifier, then the video identifier, posts to `/accounts/<id>/stream/<video>/token`
and returns the `token` of the result. -/
def StreamCreateSignedURL (D : Decls) (api : API) (params : StreamSignedURLParameters) :
    Op (String × Option GoError) := do
  if params.AccountID = "" then
    return ("", some D.ErrMissingAccountID)
  else if params.VideoID = "" then
    return ("", some D.ErrMissingVideoID)
  else
    match ← api.makeRequestContext MethodPost
        ("/accounts/" ++ params.AccountID ++ "/stream/" ++ params.VideoID ++ "/token")
        (.streamSignedURL params) with
    | .error err => return ("", some err)
    | .ok res =>
      let (r, err) ← jsonUnmarshal D (StreamSignedURLResponse.decode D) res
        { Response := Response.zero D, Token := "" }
      match err with
      | some err => return ("", some (Errorf_s_w errUnmarshalError err))
      | none => return (r.Token, none)

/-! ## A text layer and a transport to evaluate the operations on

The theorems below hold for every text layer and every transport.  To run the operations on
concrete response bodies, here is a small reader of JSON texts (ASCII, the two-character escapes
only) to put in the place of the text layer, and transports that answer with a fixed body. -/

/-- The bytes of an ASCII text. -/
def asciiBytes (s : String) : Bytes :=
  s.toList.map fun c => UInt8.ofNat c.toNat

/-- Skip JSON white space. -/
def skipWs : Bytes → Bytes
  | [] => []
  | b :: bs => if b = 32 ∨ b = 9 ∨ b = 10 ∨ b = 13 then skipWs bs else b :: bs

/-- The character a two-character escape stands for. -/
def unescape (b : UInt8) : Option Char :=
  if b = 34 then some (Char.ofNat 34)
  else if b = 92 then some (Char.ofNat 92)
  else if b = 47 then some (Char.ofNat 47)
  else if b = 98 then some (Char.ofNat 8)
  else if b = 102 then some (Char.ofNat 12)
  else if b = 110 then some (Char.ofNat 10)
  else if b = 114 then some (Char.ofNat 13)
  else if b = 116 then some (Char.ofNat 9)
  else none

/-- Read a string literal after its opening quote; `acc` holds the characters read so far, last
first. -/
def readString : Bytes → List Char → Option (String × Bytes)
  | [], _ => none
  | [b], acc => if b = 34 then some (String.mk acc.reverse, []) else none
  | b :: e :: bs, acc =>
    if b = 34 then some (String.mk acc.reverse, e :: bs)
    else if b = 92 then
      match unescape e with
      | some c => readString bs (c :: acc)
      | none => none
    else if b < 32 ∨ 128 ≤ b then none
    else readString (e :: bs) (Char.ofNat b.toNat :: acc)

/-- The digits at the front of a byte list, and what follows them. -/
def readDigits : Bytes → Bytes × Bytes
  | [] => ([], [])
  | b :: bs =>
    if 48 ≤ b ∧ b ≤ 57 then ((readDigits bs).1.cons b, (readDigits bs).2) else ([], b :: bs)

/-- Read a number literal: an optional minus sign, an integer part without a leading zero, an
optional fraction, an optional exponent. -/
def readNumber (bs : Bytes) : Option (String × Bytes) :=
  let (sign, r0) := match bs with
    | b :: r => if b = 45 then ([b], r) else ([], bs)
    | [] => ([], [])
  let (int, r1) := readDigits r0
  if int = [] ∨ (int.head? = some 48 ∧ int.length ≠ 1) then none
  else
    let fracPart : Option (Bytes × Bytes) := match r1 with
      | b :: r =>
        if b = 46 then
          let (ds, r2) := readDigits r
          if ds = [] then none else some (b :: ds, r2)
        else some ([], r1)
      | [] => some ([], [])
    match fracPart with
    | none => none
    | some (frac, r2) =>
      let expPart : Option (Bytes × Bytes) := match r2 with
        | b :: r =>
          if b = 101 ∨ b = 69 then
            let (sg, r3) := match r with
              | s :: t => if s = 43 ∨ s = 45 then ([s], t) else ([], r)
              | [] => ([], [])
            let (ds, r4) := readDigits r3
            if ds = [] then none else some (b :: sg ++ ds, r4)
          else some ([], r2)
        | [] => some ([], [])
      match expPart with
      | none => none
      | some (ex, r3) =>
        some (String.mk ((sign ++ int ++ frac ++ ex).map fun b => Char.ofNat b.toNat), r3)

/-- Strip a fixed word from the front of a byte list. -/
def readWord (w : String) (bs : Bytes) : Option Bytes :=
  if (asciiBytes w).isPrefixOf bs then some (bs.drop w.length) else none

mutual

/-- Read one JSON value and return what follows it. -/
def readValue : Nat → Bytes → Option (Json × Bytes)
  | 0, _ => none
  | fuel + 1, bs =>
    match skipWs bs with
    | [] => none
    | b :: rest =>
      if b = 123 then
        match skipWs rest with
        | c :: r => if c = 125 then some (.object [], r) else readMembers fuel (c :: r)
        | [] => none
      else if b = 91 then
        match skipWs rest with
        | c :: r => if c = 93 then some (.array [], r) else readElems fuel (c :: r)
        | [] => none
      else if b = 34 then (readString rest []).map fun sr => (.string sr.1, sr.2)
      else if b = 116 then (readWord "true" (b :: rest)).map fun r => (.bool true, r)
      else if b = 102 then (readWord "false" (b :: rest)).map fun r => (.bool false, r)
      else if b = 110 then (readWord "null" (b :: rest)).map fun r => (.null, r)
      else (readNumber (b :: rest)).map fun nr => (.number nr.1, nr.2)

/-- Read the elements of an array up to its closing bracket. -/
def readElems : Nat → Bytes → Option (Json × Bytes)
  | 0, _ => none
  | fuel + 1, bs =>
    match readValue fuel bs with
    | none => none
    | some (v, r) =>
      match skipWs r with
      | c :: r1 =>
        if c = 93 then some (.array [v], r1)
        else if c = 44 then
          match readElems fuel r1 with
          | some (.array vs, r2) => some (.array (v :: vs), r2)
          | _ => none
        else none
      | [] => none

/-- Read the members of an object up to its closing brace. -/
def readMembers : Nat → Bytes → Option (Json × Bytes)
  | 0, _ => none
  | fuel + 1, bs =>
    match skipWs bs with
    | q :: r0 =>
      if q = 34 then
        match readString r0 [] with
        | none => none
        | some (k, r1) =>
          match skipWs r1 with
          | c :: r2 =>
            if c = 58 then
              match readValue fuel r2 with
              | none => none
              | some (v, r3) =>
                match skipWs r3 with
                | d :: r4 =>
                  if d = 125 then some (.object [(k, v)], r4)
                  else if d = 44 then
                    match readMembers fuel r4 with
                    | some (.object ms, r5) => some (.object ((k, v) :: ms), r5)
                    | _ => none
                  else none
                | [] => none
            else none
          | [] => none
      else none
    | [] => none

end

/-- A reader of JSON texts: one value, white space around it, nothing after it. -/
def readJson (data : Bytes) : Except GoError Json :=
  match readValue (data.length + 1) data with
  | some (j, rest) =>
    if skipWs rest = [] then .ok j
    else .error (.errorString "invalid character after top-level value")
  | none => .error (.errorString "invalid character looking for beginning of value")


/-- A stand-in for the resource type: a video with its `uid`. -/
structure UidVideo where
  UID : String := ""
  deriving DecidableEq, Repr

/-- The member `uid` decoded into a `UidVideo`. -/
def UidVideo.decodeMember (key : String) (j : Json) (v : UidVideo) : UidVideo × Status :=
  match fieldByName [("uid", ())] key with
  | none => (v, .ok)
  | some _ =>
    match j with
    | .null => (v, .ok)
    | .string s => ({ v with UID := s }, .ok)
    | j => (v, .saved (typeError ⟨"StreamVideo", ["result", "uid"]⟩ j.kind "string"))

/-- Declarations to evaluate with: no pagination or message content, videos with a `uid`, and
`readJson` as the text layer. -/
def exampleDecls : Decls where
  ResultInfo := Unit
  zeroResultInfo := ()
  unmarshalResultInfo := fun _ v => (v, .ok)
  ResponseInfo := Unit
  zeroResponseInfo := ()
  unmarshalResponseInfo := fun _ v => (v, .ok)
  StreamVideo := UidVideo
  zeroStreamVideo := {}
  unmarshalStreamVideo := decodeStruct ⟨"StreamVideoResponse", ["result"]⟩ "cloudflare.StreamVideo"
    UidVideo.decodeMember
  StreamVideoCreate := Unit
  zeroStreamVideoCreate := ()
  unmarshalStreamVideoCreate := fun _ v => (v, .ok)
  ErrMissingAccountID := .errorString "ErrMissingAccountID"
  ErrMissingVideoID := .errorString "ErrMissingVideoID"
  ErrMissingUploadURL := .errorString "ErrMissingUploadURL"
  ErrMissingFilePath := .errorString "ErrMissingFilePath"
  ErrMissingMaxDuration := .errorString "ErrMissingMaxDuration"
  jsonParse := readJson

/-- A client whose transport answers every request with the same outcome, and which has no
local files. -/
def fixedAPI (outcome : Except GoError Bytes) : API where
  transport := fun _ => outcome
  openFile := fun _ => .error (.errorString "open: no such file or directory")

/-- A client whose transport answers by the path of the request, a missing path being a
transport error, and which has no local files. -/
def routedAPI (routes : List (String × Except GoError Bytes)) : API where
  transport := fun req =>
    (routes.lookup req.uri).getD (.error (.errorString "404 page not found"))
  openFile := fun _ => .error (.errorString "open: no such file or directory")

/-- The request `GetBotManagement` is expected to issue for zone `z`. -/
def expectedGetRequest (z : String) : Request :=
  { method := "GET", uri := "/zones/" ++ z ++ "/bot_management", params := .nil,
    headers := [("Cloudflare-Version", ["2.0.0"])] }

/-- The request `UpdateBotManagement` is expected to issue for zone `z` and parameters `p`. -/
def expectedPutRequest (z : String) (p : UpdateBotManagementParams) : Request :=
  { method := "PUT", uri := "/zones/" ++ z ++ "/bot_management",
    params := .updateBotManagement p, headers := [("Cloudflare-Version", ["2.0.0"])] }

/-- What `json.Unmarshal` makes of a response body of the bot-management endpoints. -/
def unmarshalBotManagementResponse (D : Decls) (body : Bytes) :
    BotManagementResponse D × Option GoError :=
  jsonDecode D (BotManagementResponse.decode D) body (BotManagementResponse.zero D)

/-- The success envelope of the fixtures in `stream_test.go`, around a given `result`. -/
def successEnvelope (result : Json) : Json :=
  .object [("success", .bool true), ("errors", .array []), ("messages", .array []),
    ("result", result)]

/-- The `BotManagement` with the nine fields of the parameters and no `UsingLatestModel`. -/
def UpdateBotManagementParams.echo (p : UpdateBotManagementParams) : BotManagement :=
  { EnableJS := p.EnableJS, FightMode := p.FightMode,
    SBFMDefinitelyAutomated := p.SBFMDefinitelyAutomated,
    SBFMLikelyAutomated := p.SBFMLikelyAutomated, SBFMVerifiedBots := p.SBFMVerifiedBots,
    SBFMStaticResourceProtection := p.SBFMStaticResourceProtection,
    OptimizeWordpress := p.OptimizeWordpress, SuppressSessionScore := p.SuppressSessionScore,
    AutoUpdateModel := p.AutoUpdateModel, UsingLatestModel := none }

/-! ## Theorems -/

/-- The header set `botV2Header` builds, evaluated. -/
theorem botV2Header_eq : botV2Header = [("Cloudflare-Version", ["2.0.0"])] := by
  decide

/-- The three ways `GetBotManagement` can run, by the outcome of the transport call and of
`json.Unmarshal`: what it returns and the events it leaves. -/
theorem GetBotManagement_exec (D : Decls) (api : API) (rc : ResourceContainer) :
    (GetBotManagement D api rc).exec =
      match api.transport (expectedGetRequest rc.Identifier) with
      | .error err =>
        (({}, D.zeroResultInfo, some err),
          [.transportCall (expectedGetRequest rc.Identifier)])
      | .ok res =>
        match unmarshalBotManagementResponse D res with
        | (_, some err) =>
          (({}, D.zeroResultInfo, some (Errorf_s_w errUnmarshalError err)),
            [.transportCall (expectedGetRequest rc.Identifier), .jsonUnmarshal res])
        | (asResponse, none) =>
          ((asResponse.Result, asResponse.ResultInfo, none),
            [.transportCall (expectedGetRequest rc.Identifier), .jsonUnmarshal res]) := by
  have hh := botV2Header_eq
  simp only [GetBotManagement, Op.exec, API.makeRequestContextWithHeaders, emit,
    expectedGetRequest, MethodGet, hh, jsonUnmarshal, unmarshalBotManagementResponse]
  cases h : api.transport ⟨"GET", "/zones/" ++ rc.Identifier ++ "/bot_management", .nil,
      [("Cloudflare-Version", ["2.0.0"])]⟩ with
  | error e =>
    simp [h, StateT.run, bind, StateT.bind, modify, modifyGet, MonadStateOf.modifyGet,
      StateT.modifyGet, pure, StateT.pure]
  | ok res =>
    rcases h2 : jsonDecode D (BotManagementResponse.decode D) res
      (BotManagementResponse.zero D) with ⟨resp, _ | e⟩ <;>
    simp [h, h2, StateT.run, bind, StateT.bind, modify, modifyGet, MonadStateOf.modifyGet,
      StateT.modifyGet, pure, StateT.pure]

/-- The three ways `UpdateBotManagement` can run. -/
theorem UpdateBotManagement_exec (D : Decls) (api : API) (rc : ResourceContainer)
    (params : UpdateBotManagementParams) :
    (UpdateBotManagement D api rc params).exec =
      match api.transport (expectedPutRequest rc.Identifier params) with
      | .error err =>
        (({}, some err), [.transportCall (expectedPutRequest rc.Identifier params)])
      | .ok res =>
        match unmarshalBotManagementResponse D res with
        | (_, some err) =>
          (({}, some (Errorf_s_w errUnmarshalError err)),
            [.transportCall (expectedPutRequest rc.Identifier params), .jsonUnmarshal res])
        | (bmResponse, none) =>
          ((bmResponse.Result, none),
            [.transportCall (expectedPutRequest rc.Identifier params), .jsonUnmarshal res]) := by
  have hh := botV2Header_eq
  simp only [UpdateBotManagement, Op.exec, API.makeRequestContextWithHeaders, emit,
    expectedPutRequest, MethodPut, hh, jsonUnmarshal, unmarshalBotManagementResponse]
  cases h : api.transport ⟨"PUT", "/zones/" ++ rc.Identifier ++ "/bot_management",
      .updateBotManagement params, [("Cloudflare-Version", ["2.0.0"])]⟩ with
  | error e =>
    simp [h, StateT.run, bind, StateT.bind, modify, modifyGet, MonadStateOf.modifyGet,
      StateT.modifyGet, pure, StateT.pure]
  | ok res =>
    rcases h2 : jsonDecode D (BotManagementResponse.decode D) res
      (BotManagementResponse.zero D) with ⟨resp, _ | e⟩ <;>
    simp [h, h2, StateT.run, bind, StateT.bind, modify, modifyGet, MonadStateOf.modifyGet,
      StateT.modifyGet, pure, StateT.pure]

/-- The message of the error `fmt.Errorf("%s: %w", s, e)` builds. -/
theorem Errorf_s_w_Error (s : String) (e : GoError) :
    (Errorf_s_w s e).Error = s ++ ": " ++ e.Error := rfl

/-- The error `fmt.Errorf("%s: %w", s, e)` builds unwraps to `e`. -/
theorem Errorf_s_w_Unwrap (s : String) (e : GoError) : (Errorf_s_w s e).Unwrap = some e := rfl

/-- C1: when the transport succeeds with a body that `json.Unmarshal` rejects for the envelope
with error `e`, `GetBotManagement` and `UpdateBotManagement` return zero values and a non-nil
error whose message is "unable to unmarshal response", then ": ", then the message of `e`, and
which unwraps to `e`. -/
theorem botManagement_decode_error (D : Decls) (api : API) (rc : ResourceContainer)
    (params : UpdateBotManagementParams) (body : Bytes) (e : GoError)
    (he : (unmarshalBotManagementResponse D body).2 = some e) :
    (api.transport (expectedGetRequest rc.Identifier) = .ok body →
      ∃ err, (GetBotManagement D api rc).exec.1 = ({}, D.zeroResultInfo, some err) ∧
        err.Error = "unable to unmarshal response" ++ ": " ++ e.Error ∧
        err.Unwrap = some e) ∧
    (api.transport (expectedPutRequest rc.Identifier params) = .ok body →
      ∃ err, (UpdateBotManagement D api rc params).exec.1 = ({}, some err) ∧
        err.Error = "unable to unmarshal response" ++ ": " ++ e.Error ∧
        err.Unwrap = some e) := by
  rcases hb : unmarshalBotManagementResponse D body with ⟨resp, err⟩
  rw [hb] at he
  simp only at he
  subst he
  constructor
  · intro ht
    refine ⟨Errorf_s_w errUnmarshalError e, ?_, rfl, rfl⟩
    rw [GetBotManagement_exec, ht]
    simp only [hb]
  · intro ht
    refine ⟨Errorf_s_w errUnmarshalError e, ?_, rfl, rfl⟩
    rw [UpdateBotManagement_exec, ht]
    simp only [hb]

/-- C1 at a concrete input: an HTML body is not JSON text, and both operations return the wrapped
parse error. -/
theorem botManagement_decode_error_witness :
    (∃ err, (GetBotManagement exampleDecls (fixedAPI (.ok (asciiBytes "<html>")))
        ⟨"023e105f4ecef8ad9ca31a8372d0c353"⟩).exec.1 = ({}, (), some err) ∧
      err.Error = "unable to unmarshal response" ++ ": " ++
        "invalid character looking for beginning of value" ∧
      err.Unwrap = some (.errorString "invalid character looking for beginning of value")) ∧
    (∃ err, (UpdateBotManagement exampleDecls (fixedAPI (.ok (asciiBytes "<html>")))
        ⟨"023e105f4ecef8ad9ca31a8372d0c353"⟩ { FightMode := some true }).exec.1
          = ({}, some err) ∧
      err.Error = "unable to unmarshal response" ++ ": " ++
        "invalid character looking for beginning of value" ∧
      err.Unwrap = some (.errorString "invalid character looking for beginning of value")) :=
  have h := botManagement_decode_error exampleDecls (fixedAPI (.ok (asciiBytes "<html>")))
    ⟨"023e105f4ecef8ad9ca31a8372d0c353"⟩ { FightMode := some true } (asciiBytes "<html>")
    (.errorString "invalid character looking for beginning of value") (by decide)
  ⟨h.1 rfl, h.2 rfl⟩

/-- The run of `GetBotManagement` when the transport fails. -/
theorem GetBotManagement_of_transport_error (D : Decls) (api : API) (rc : ResourceContainer)
    {e : GoError} (h : api.transport (expectedGetRequest rc.Identifier) = .error e) :
    (GetBotManagement D api rc).exec =
      (({}, D.zeroResultInfo, some e), [.transportCall (expectedGetRequest rc.Identifier)]) := by
  rw [GetBotManagement_exec, h]

/-- The run of `GetBotManagement` when the body is rejected by `json.Unmarshal`. -/
theorem GetBotManagement_of_decode_error (D : Decls) (api : API) (rc : ResourceContainer)
    {res : Bytes} {resp : BotManagementResponse D} {e : GoError}
    (h : api.transport (expectedGetRequest rc.Identifier) = .ok res)
    (h2 : unmarshalBotManagementResponse D res = (resp, some e)) :
    (GetBotManagement D api rc).exec =
      (({}, D.zeroResultInfo, some (Errorf_s_w errUnmarshalError e)),
        [.transportCall (expectedGetRequest rc.Identifier), .jsonUnmarshal res]) := by
  rw [GetBotManagement_exec, h]
  simp only [h2]

/-- The run of `GetBotManagement` when the body is decoded. -/
theorem GetBotManagement_of_decoded (D : Decls) (api : API) (rc : ResourceContainer)
    {res : Bytes} {resp : BotManagementResponse D}
    (h : api.transport (expectedGetRequest rc.Identifier) = .ok res)
    (h2 : unmarshalBotManagementResponse D res = (resp, none)) :
    (GetBotManagement D api rc).exec =
      ((resp.Result, resp.ResultInfo, none),
        [.transportCall (expectedGetRequest rc.Identifier), .jsonUnmarshal res]) := by
  rw [GetBotManagement_exec, h]
  simp only [h2]

/-- The run of `UpdateBotManagement` when the transport fails. -/
theorem UpdateBotManagement_of_transport_error (D : Decls) (api : API) (rc : ResourceContainer)
    (params : UpdateBotManagementParams) {e : GoError}
    (h : api.transport (expectedPutRequest rc.Identifier params) = .error e) :
    (UpdateBotManagement D api rc params).exec =
      (({}, some e), [.transportCall (expectedPutRequest rc.Identifier params)]) := by
  rw [UpdateBotManagement_exec, h]

/-- The run of `UpdateBotManagement` when the body is rejected by `json.Unmarshal`. -/
theorem UpdateBotManagement_of_decode_error (D : Decls) (api : API) (rc : ResourceContainer)
    (params : UpdateBotManagementParams) {res : Bytes} {resp : BotManagementResponse D}
    {e : GoError} (h : api.transport (expectedPutRequest rc.Identifier params) = .ok res)
    (h2 : unmarshalBotManagementResponse D res = (resp, some e)) :
    (UpdateBotManagement D api rc params).exec =
      (({}, some (Errorf_s_w errUnmarshalError e)),
        [.transportCall (expectedPutRequest rc.Identifier params), .jsonUnmarshal res]) := by
  rw [UpdateBotManagement_exec, h]
  simp only [h2]

/-- The run of `UpdateBotManagement` when the body is decoded. -/
theorem UpdateBotManagement_of_decoded (D : Decls) (api : API) (rc : ResourceContainer)
    (params : UpdateBotManagementParams) {res : Bytes} {resp : BotManagementResponse D}
    (h : api.transport (expectedPutRequest rc.Identifier params) = .ok res)
    (h2 : unmarshalBotManagementResponse D res = (resp, none)) :
    (UpdateBotManagement D api rc params).exec =
      ((resp.Result, none),
        [.transportCall (expectedPutRequest rc.Identifier params), .jsonUnmarshal res]) := by
  rw [UpdateBotManagement_exec, h]
  simp only [h2]

/-- The transport calls of one `GetBotManagement`, whatever the outcome. -/
theorem GetBotManagement_transportCalls (D : Decls) (api : API) (rc : ResourceContainer) :
    transportCalls (GetBotManagement D api rc).exec.2 = [expectedGetRequest rc.Identifier] := by
  cases h : api.transport (expectedGetRequest rc.Identifier) with
  | error e => rw [GetBotManagement_of_transport_error D api rc h]; rfl
  | ok res =>
    rcases h2 : unmarshalBotManagementResponse D res with ⟨resp, _ | e⟩
    · rw [GetBotManagement_of_decoded D api rc h h2]; rfl
    · rw [GetBotManagement_of_decode_error D api rc h h2]; rfl

/-- The transport calls of one `UpdateBotManagement`, whatever the outcome. -/
theorem UpdateBotManagement_transportCalls (D : Decls) (api : API) (rc : ResourceContainer)
    (params : UpdateBotManagementParams) :
    transportCalls (UpdateBotManagement D api rc params).exec.2 =
      [expectedPutRequest rc.Identifier params] := by
  cases h : api.transport (expectedPutRequest rc.Identifier params) with
  | error e => rw [UpdateBotManagement_of_transport_error D api rc params h]; rfl
  | ok res =>
    rcases h2 : unmarshalBotManagementResponse D res with ⟨resp, _ | e⟩
    · rw [UpdateBotManagement_of_decoded D api rc params h h2]; rfl
    · rw [UpdateBotManagement_of_decode_error D api rc params h h2]; rfl

/-- C2, as stated, fails: with an empty zone identifier and a transport that answers with a
success envelope, `GetBotManagement` and `UpdateBotManagement` each make one transport call and
return a nil error, not a validation error after zero calls. -/
theorem botManagement_empty_zone_counterexample :
    (transportCalls (GetBotManagement exampleDecls
        (fixedAPI (.ok (asciiBytes "\x7b\"success\": true, \"result\": \x7b\x7d\x7d")))
        ⟨""⟩).exec.2).length = 1 ∧
    (GetBotManagement exampleDecls
        (fixedAPI (.ok (asciiBytes "\x7b\"success\": true, \"result\": \x7b\x7d\x7d")))
        ⟨""⟩).exec.1.2.2 = none ∧
    (transportCalls (UpdateBotManagement exampleDecls
        (fixedAPI (.ok (asciiBytes "\x7b\"success\": true, \"result\": \x7b\x7d\x7d")))
        ⟨""⟩ {}).exec.2).length = 1 ∧
    (UpdateBotManagement exampleDecls
        (fixedAPI (.ok (asciiBytes "\x7b\"success\": true, \"result\": \x7b\x7d\x7d")))
        ⟨""⟩ {}).exec.1.2 = none := by
  refine ⟨?_, ?_, ?_, ?_⟩
  · rw [GetBotManagement_transportCalls]; rfl
  · rw [GetBotManagement_exec]; decide
  · rw [UpdateBotManagement_transportCalls]; rfl
  · rw [UpdateBotManagement_exec]; decide

/-- C2, amended: the zone identifier is not validated.  With an empty identifier each operation
makes exactly one transport call, to the path "/zones//bot_management", and what it returns for
an error is settled by that call alone: nil when the transport answers with a body that
`json.Unmarshal` accepts, the transport's error when the call fails, and the wrapped error of
`json.Unmarshal` when the body is rejected.  No missing-identifier error is produced. -/
theorem botManagement_empty_zone (D : Decls) (api : API) (params : UpdateBotManagementParams) :
    (transportCalls (GetBotManagement D api ⟨""⟩).exec.2 =
        [{ method := "GET", uri := "/zones//bot_management", params := .nil,
           headers := [("Cloudflare-Version", ["2.0.0"])] }] ∧
      ((∃ body, api.transport (expectedGetRequest "") = .ok body ∧
          (unmarshalBotManagementResponse D body).2 = none ∧
          (GetBotManagement D api ⟨""⟩).exec.1.2.2 = none) ∨
        (∃ e, api.transport (expectedGetRequest "") = .error e ∧
          (GetBotManagement D api ⟨""⟩).exec.1.2.2 = some e) ∨
        (∃ body e, api.transport (expectedGetRequest "") = .ok body ∧
          (unmarshalBotManagementResponse D body).2 = some e ∧
          (GetBotManagement D api ⟨""⟩).exec.1.2.2 = some (Errorf_s_w errUnmarshalError e)))) ∧
    (transportCalls (UpdateBotManagement D api ⟨""⟩ params).exec.2 =
        [{ method := "PUT", uri := "/zones//bot_management",
           params := .updateBotManagement params,
           headers := [("Cloudflare-Version", ["2.0.0"])] }] ∧
      ((∃ body, api.transport (expectedPutRequest "" params) = .ok body ∧
          (unmarshalBotManagementResponse D body).2 = none ∧
          (UpdateBotManagement D api ⟨""⟩ params).exec.1.2 = none) ∨
        (∃ e, api.transport (expectedPutRequest "" params) = .error e ∧
          (UpdateBotManagement D api ⟨""⟩ params).exec.1.2 = some e) ∨
        (∃ body e, api.transport (expectedPutRequest "" params) = .ok body ∧
          (unmarshalBotManagementResponse D body).2 = some e ∧
          (UpdateBotManagement D api ⟨""⟩ params).exec.1.2 =
            some (Errorf_s_w errUnmarshalError e)))) := by
  refine ⟨⟨?_, ?_⟩, ⟨?_, ?_⟩⟩
  · rw [GetBotManagement_transportCalls]; rfl
  · cases h : api.transport (expectedGetRequest (ResourceContainer.mk "").Identifier) with
    | error e =>
      refine Or.inr (Or.inl ⟨e, rfl, ?_⟩)
      rw [GetBotManagement_of_transport_error D api _ h]
    | ok res =>
      rcases h2 : unmarshalBotManagementResponse D res with ⟨resp, _ | e⟩
      · refine Or.inl ⟨res, rfl, by rw [h2], ?_⟩
        rw [GetBotManagement_of_decoded D api _ h h2]
      · refine Or.inr (Or.inr ⟨res, e, rfl, by rw [h2], ?_⟩)
        rw [GetBotManagement_of_decode_error D api _ h h2]
  · rw [UpdateBotManagement_transportCalls]; rfl
  · cases h : api.transport (expectedPutRequest (ResourceContainer.mk "").Identifier params) with
    | error e =>
      refine Or.inr (Or.inl ⟨e, rfl, ?_⟩)
      rw [UpdateBotManagement_of_transport_error D api _ params h]
    | ok res =>
      rcases h2 : unmarshalBotManagementResponse D res with ⟨resp, _ | e⟩
      · refine Or.inl ⟨res, rfl, by rw [h2], ?_⟩
        rw [UpdateBotManagement_of_decoded D api _ params h h2]
      · refine Or.inr (Or.inr ⟨res, e, rfl, by rw [h2], ?_⟩)
        rw [UpdateBotManagement_of_decode_error D api _ params h h2]

/-- C3: when the transport call fails with `e`, both operations return exactly `e` with zero
values, and `json.Unmarshal` is not called. -/
theorem botManagement_transport_error (D : Decls) (api : API) (rc : ResourceContainer)
    (params : UpdateBotManagementParams) (e : GoError) :
    (api.transport (expectedGetRequest rc.Identifier) = .error e →
      (GetBotManagement D api rc).exec.1 = ({}, D.zeroResultInfo, some e) ∧
      unmarshalCalls (GetBotManagement D api rc).exec.2 = []) ∧
    (api.transport (expectedPutRequest rc.Identifier params) = .error e →
      (UpdateBotManagement D api rc params).exec.1 = ({}, some e) ∧
      unmarshalCalls (UpdateBotManagement D api rc params).exec.2 = []) := by
  constructor
  · intro h
    rw [GetBotManagement_of_transport_error D api rc h]
    exact ⟨rfl, rfl⟩
  · intro h
    rw [UpdateBotManagement_of_transport_error D api rc params h]
    exact ⟨rfl, rfl⟩

/-- C3 at a concrete input: a refused connection comes back as it is. -/
theorem botManagement_transport_error_witness :
    ((GetBotManagement exampleDecls (fixedAPI (.error (.errorString "connection refused")))
        ⟨"023e105f4ecef8ad9ca31a8372d0c353"⟩).exec.1
        = ({}, (), some (.errorString "connection refused")) ∧
      unmarshalCalls (GetBotManagement exampleDecls
        (fixedAPI (.error (.errorString "connection refused")))
        ⟨"023e105f4ecef8ad9ca31a8372d0c353"⟩).exec.2 = []) ∧
    ((UpdateBotManagement exampleDecls (fixedAPI (.error (.errorString "connection refused")))
        ⟨"023e105f4ecef8ad9ca31a8372d0c353"⟩ { EnableJS := some false }).exec.1
        = ({}, some (.errorString "connection refused")) ∧
      unmarshalCalls (UpdateBotManagement exampleDecls
        (fixedAPI (.error (.errorString "connection refused")))
        ⟨"023e105f4ecef8ad9ca31a8372d0c353"⟩ { EnableJS := some false }).exec.2 = []) :=
  have h := botManagement_transport_error exampleDecls
    (fixedAPI (.error (.errorString "connection refused")))
    ⟨"023e105f4ecef8ad9ca31a8372d0c353"⟩ { EnableJS := some false }
    (.errorString "connection refused")
  ⟨h.1 rfl, h.2 rfl⟩

/-- C4: `botV2Header` is the header set with the single entry `Cloudflare-Version: 2.0.0`, and
whatever the client, the zone and the parameters, the one request each operation issues carries
exactly that header set. -/
theorem botManagement_version_header :
    botV2Header = [("Cloudflare-Version", ["2.0.0"])] ∧
    ∀ (D : Decls) (api : API) (rc : ResourceContainer) (params : UpdateBotManagementParams),
      (transportCalls (GetBotManagement D api rc).exec.2).map Request.headers = [botV2Header] ∧
      (transportCalls (UpdateBotManagement D api rc params).exec.2).map Request.headers =
        [botV2Header] := by
  refine ⟨botV2Header_eq, fun D api rc params => ?_⟩
  rw [GetBotManagement_transportCalls, UpdateBotManagement_transportCalls, botV2Header_eq]
  exact ⟨rfl, rfl⟩

/-- C7: each operation ends in one of two ways.  Either the error is nil, the transport has
answered with a body that `json.Unmarshal` accepts, and the values returned are the `Result`
(and for `GetBotManagement` the `ResultInfo`) decoded from it; or the error is non-nil and the
values returned are the zero values. -/
theorem botManagement_result_or_error (D : Decls) (api : API) (rc : ResourceContainer)
    (params : UpdateBotManagementParams) :
    (((GetBotManagement D api rc).exec.1.2.2 = none ∧
        ∃ body resp, api.transport (expectedGetRequest rc.Identifier) = .ok body ∧
          unmarshalBotManagementResponse D body = (resp, none) ∧
          (GetBotManagement D api rc).exec.1.1 = resp.Result ∧
          (GetBotManagement D api rc).exec.1.2.1 = resp.ResultInfo) ∨
      ((GetBotManagement D api rc).exec.1.2.2 ≠ none ∧
        (GetBotManagement D api rc).exec.1.1 = {} ∧
        (GetBotManagement D api rc).exec.1.2.1 = D.zeroResultInfo)) ∧
    (((UpdateBotManagement D api rc params).exec.1.2 = none ∧
        ∃ body resp, api.transport (expectedPutRequest rc.Identifier params) = .ok body ∧
          unmarshalBotManagementResponse D body = (resp, none) ∧
          (UpdateBotManagement D api rc params).exec.1.1 = resp.Result) ∨
      ((UpdateBotManagement D api rc params).exec.1.2 ≠ none ∧
        (UpdateBotManagement D api rc params).exec.1.1 = {})) := by
  constructor
  · cases h : api.transport (expectedGetRequest rc.Identifier) with
    | error e =>
      rw [GetBotManagement_of_transport_error D api rc h]
      exact Or.inr ⟨by simp, rfl, rfl⟩
    | ok res =>
      rcases h2 : unmarshalBotManagementResponse D res with ⟨resp, _ | e⟩
      · rw [GetBotManagement_of_decoded D api rc h h2]
        exact Or.inl ⟨rfl, res, resp, rfl, h2, rfl, rfl⟩
      · rw [GetBotManagement_of_decode_error D api rc h h2]
        exact Or.inr ⟨by simp, rfl, rfl⟩
  · cases h : api.transport (expectedPutRequest rc.Identifier params) with
    | error e =>
      rw [UpdateBotManagement_of_transport_error D api rc params h]
      exact Or.inr ⟨by simp, rfl⟩
    | ok res =>
      rcases h2 : unmarshalBotManagementResponse D res with ⟨resp, _ | e⟩
      · rw [UpdateBotManagement_of_decoded D api rc params h h2]
        exact Or.inl ⟨rfl, res, resp, rfl, h2, rfl⟩
      · rw [UpdateBotManagement_of_decode_error D api rc params h h2]
        exact Or.inr ⟨by simp, rfl⟩

/-- C8: whatever the transport does, `GetBotManagement` makes exactly one transport call, a GET
of "/zones/" + z + "/bot_management" without body, and `UpdateBotManagement` exactly one, a PUT
of the same path with the parameters as body. -/
theorem botManagement_one_call (D : Decls) (api : API) (z : String)
    (p : UpdateBotManagementParams) :
    transportCalls (GetBotManagement D api ⟨z⟩).exec.2 =
      [{ method := "GET", uri := "/zones/" ++ z ++ "/bot_management", params := .nil,
         headers := [("Cloudflare-Version", ["2.0.0"])] }] ∧
    transportCalls (UpdateBotManagement D api ⟨z⟩ p).exec.2 =
      [{ method := "PUT", uri := "/zones/" ++ z ++ "/bot_management",
         params := .updateBotManagement p,
         headers := [("Cloudflare-Version", ["2.0.0"])] }] :=
  ⟨GetBotManagement_transportCalls D api ⟨z⟩, UpdateBotManagement_transportCalls D api ⟨z⟩ p⟩

/-- Looking a name up in an `omitempty` member followed by other members. -/
theorem lookup_omitemptyPtr {α : Type} (name : String) (enc : α → Json) (o : Option α)
    (k : String) (rest : List (String × Json)) :
    (omitemptyPtr name enc o ++ rest).lookup k =
      if k = name then (o.map enc).or (rest.lookup k) else rest.lookup k := by
  cases o with
  | none => simp [omitemptyPtr]
  | some a =>
    by_cases h : k = name
    · simp [omitemptyPtr, List.lookup, h]
    · have : (k == name) = false := by simpa using h
      simp [omitemptyPtr, List.lookup, h, this]

/-- Looking a name up in a single `omitempty` member. -/
theorem lookup_omitemptyPtr_last {α : Type} (name : String) (enc : α → Json) (o : Option α)
    (k : String) :
    (omitemptyPtr name enc o).lookup k = if k = name then o.map enc else none := by
  cases o with
  | none => simp [omitemptyPtr]
  | some a =>
    by_cases h : k = name
    · simp [omitemptyPtr, List.lookup, h]
    · have : (k == name) = false := by simpa using h
      simp [omitemptyPtr, List.lookup, h, this]

/-- An `omitempty` member contributes its name or nothing. -/
theorem keys_omitemptyPtr_sublist {α : Type} (name : String) (enc : α → Json) (o : Option α) :
    ((omitemptyPtr name enc o).map Prod.fst).Sublist [name] := by
  cases o <;> simp [omitemptyPtr]

/-- C5: the JSON object sent as the body of the update request holds the member of an optional
field exactly when the field is non-nil, with the value pointed to (so `false` and the empty
string are sent, and a nil field leaves no member); its member names are distinct and are
among the nine names of the struct tags. -/
theorem update_body_omits_absent_fields (D : Decls) (api : API) (rc : ResourceContainer)
    (p : UpdateBotManagementParams) :
    ∃ ms, (transportCalls (UpdateBotManagement D api rc p).exec.2).map
        (fun r => botManagementBody r.params) = [some (.object ms)] ∧
      ms.lookup "enable_js" = p.EnableJS.map Json.bool ∧
      ms.lookup "fight_mode" = p.FightMode.map Json.bool ∧
      ms.lookup "sbfm_definitely_automated" = p.SBFMDefinitelyAutomated.map Json.string ∧
      ms.lookup "sbfm_likely_automated" = p.SBFMLikelyAutomated.map Json.string ∧
      ms.lookup "sbfm_verified_bots" = p.SBFMVerifiedBots.map Json.string ∧
      ms.lookup "sbfm_static_resource_protection" =
        p.SBFMStaticResourceProtection.map Json.bool ∧
      ms.lookup "optimize_wordpress" = p.OptimizeWordpress.map Json.bool ∧
      ms.lookup "suppress_session_score" = p.SuppressSessionScore.map Json.bool ∧
      ms.lookup "auto_update_model" = p.AutoUpdateModel.map Json.bool ∧
      (ms.map Prod.fst).Sublist
        ["enable_js", "fight_mode", "sbfm_definitely_automated", "sbfm_likely_automated",
         "sbfm_verified_bots", "sbfm_static_resource_protection", "optimize_wordpress",
         "suppress_session_score", "auto_update_model"] ∧
      (ms.map Prod.fst).Nodup := by
  have hsub : ((omitemptyPtr "enable_js" Json.bool p.EnableJS ++
      omitemptyPtr "fight_mode" Json.bool p.FightMode ++
      omitemptyPtr "sbfm_definitely_automated" Json.string p.SBFMDefinitelyAutomated ++
      omitemptyPtr "sbfm_likely_automated" Json.string p.SBFMLikelyAutomated ++
      omitemptyPtr "sbfm_verified_bots" Json.string p.SBFMVerifiedBots ++
      omitemptyPtr "sbfm_static_resource_protection" Json.bool p.SBFMStaticResourceProtection ++
      omitemptyPtr "optimize_wordpress" Json.bool p.OptimizeWordpress ++
      omitemptyPtr "suppress_session_score" Json.bool p.SuppressSessionScore ++
      omitemptyPtr "auto_update_model" Json.bool p.AutoUpdateModel).map Prod.fst).Sublist
        (((((((([ "enable_js"] ++ ["fight_mode"]) ++ ["sbfm_definitely_automated"]) ++
          ["sbfm_likely_automated"]) ++ ["sbfm_verified_bots"]) ++
          ["sbfm_static_resource_protection"]) ++ ["optimize_wordpress"]) ++
          ["suppress_session_score"]) ++ ["auto_update_model"]) := by
    simp only [List.map_append]
    exact (((((((((keys_omitemptyPtr_sublist _ _ _).append
      (keys_omitemptyPtr_sublist _ _ _)).append
      (keys_omitemptyPtr_sublist _ _ _)).append
      (keys_omitemptyPtr_sublist _ _ _)).append
      (keys_omitemptyPtr_sublist _ _ _)).append
      (keys_omitemptyPtr_sublist _ _ _)).append
      (keys_omitemptyPtr_sublist _ _ _)).append
      (keys_omitemptyPtr_sublist _ _ _)).append
      (keys_omitemptyPtr_sublist _ _ _))
  refine ⟨_, ?_, ?_, ?_, ?_, ?_, ?_, ?_, ?_, ?_, ?_, hsub, hsub.nodup (by decide)⟩
  · rw [UpdateBotManagement_transportCalls]
    rfl
  · simp [lookup_omitemptyPtr, lookup_omitemptyPtr_last]
  · simp [lookup_omitemptyPtr, lookup_omitemptyPtr_last]
  · simp [lookup_omitemptyPtr, lookup_omitemptyPtr_last]
  · simp [lookup_omitemptyPtr, lookup_omitemptyPtr_last]
  · simp [lookup_omitemptyPtr, lookup_omitemptyPtr_last]
  · simp [lookup_omitemptyPtr, lookup_omitemptyPtr_last]
  · simp [lookup_omitemptyPtr, lookup_omitemptyPtr_last]
  · simp [lookup_omitemptyPtr, lookup_omitemptyPtr_last]
  · simp [lookup_omitemptyPtr, lookup_omitemptyPtr_last]

/-- Two steps end without error only when each does. -/
theorem Status.andThen_eq_ok {s t : Status} (h : s.andThen t = .ok) : s = .ok ∧ t = .ok := by
  cases s <;> cases t <;> simp_all [Status.andThen]

/-- Members decoded without error can be decoded first, the others after them. -/
theorem decodeMembers_append_of_ok {σ : Type} (step : String → Json → σ → σ × Status)
    (l1 l2 : List (String × Json)) (v v1 : σ) (h : decodeMembers step l1 v = (v1, .ok)) :
    decodeMembers step (l1 ++ l2) v = decodeMembers step l2 v1 := by
  induction l1 generalizing v with
  | nil =>
    simp only [decodeMembers, Prod.mk.injEq, and_true] at h
    subst h
    rfl
  | cons kv rest ih =>
    obtain ⟨k, j⟩ := kv
    simp only [List.cons_append, decodeMembers] at h ⊢
    rcases hs : step k j v with ⟨v2, s⟩
    rw [hs] at h
    cases s with
    | fatal e => simp at h
    | ok =>
      simp only [Prod.mk.injEq] at h
      have h1 : decodeMembers step rest v2 = (v1, .ok) := by
        rcases hr : decodeMembers step rest v2 with ⟨a, b⟩
        rw [hr] at h
        simp only [Status.andThen] at h
        rw [h.1, h.2]
      have h2 := ih v2 h1
      simp only [List.append_eq] at h2 ⊢
      rw [h2]
      rfl
    | saved e =>
      simp only [Prod.mk.injEq] at h
      exact absurd (Status.andThen_eq_ok h.2).1 (by simp)

/-- The nine member names of the update body select the fields they are tags of. -/
theorem fieldByName_botManagement :
    fieldByName botManagementFields "enable_js" = some .EnableJS ∧
    fieldByName botManagementFields "fight_mode" = some .FightMode ∧
    fieldByName botManagementFields "sbfm_definitely_automated" = some .SBFMDefinitelyAutomated ∧
    fieldByName botManagementFields "sbfm_likely_automated" = some .SBFMLikelyAutomated ∧
    fieldByName botManagementFields "sbfm_verified_bots" = some .SBFMVerifiedBots ∧
    fieldByName botManagementFields "sbfm_static_resource_protection" =
      some .SBFMStaticResourceProtection ∧
    fieldByName botManagementFields "optimize_wordpress" = some .OptimizeWordpress ∧
    fieldByName botManagementFields "suppress_session_score" = some .SuppressSessionScore ∧
    fieldByName botManagementFields "auto_update_model" = some .AutoUpdateModel := by
  decide

/-- Decoding the member `enable_js` of the update body into a `BotManagement` that has the field
nil sets the field to what the parameters hold. -/
theorem decodeMembers_enable_js (c : ErrorContext) (o : Option Bool)
    (v : BotManagement) (h : v.EnableJS = none) :
    decodeMembers (BotManagement.decodeMember c) (omitemptyPtr "enable_js" Json.bool o) v =
      ({ v with EnableJS := o }, .ok) := by
  cases o with
  | none =>
    obtain ⟨f1, f2, f3, f4, f5, f6, f7, f8, f9, f10⟩ := v
    simp only at h
    subst h
    rfl
  | some a =>
    simp [omitemptyPtr, decodeMembers, BotManagement.decodeMember,
      fieldByName_botManagement.1, decodeBoolPtr, Status.andThen]

/-- Decoding the member `fight_mode` of the update body into a `BotManagement` that has the field
nil sets the field to what the parameters hold. -/
theorem decodeMembers_fight_mode (c : ErrorContext) (o : Option Bool)
    (v : BotManagement) (h : v.FightMode = none) :
    decodeMembers (BotManagement.decodeMember c) (omitemptyPtr "fight_mode" Json.bool o) v =
      ({ v with FightMode := o }, .ok) := by
  cases o with
  | none =>
    obtain ⟨f1, f2, f3, f4, f5, f6, f7, f8, f9, f10⟩ := v
    simp only at h
    subst h
    rfl
  | some a =>
    simp [omitemptyPtr, decodeMembers, BotManagement.decodeMember,
      fieldByName_botManagement.2.1, decodeBoolPtr, Status.andThen]

/-- Decoding the member `sbfm_definitely_automated` of the update body into a `BotManagement` that has the field
nil sets the field to what the parameters hold. -/
theorem decodeMembers_sbfm_definitely_automated (c : ErrorContext) (o : Option String)
    (v : BotManagement) (h : v.SBFMDefinitelyAutomated = none) :
    decodeMembers (BotManagement.decodeMember c) (omitemptyPtr "sbfm_definitely_automated" Json.string o) v =
      ({ v with SBFMDefinitelyAutomated := o }, .ok) := by
  cases o with
  | none =>
    obtain ⟨f1, f2, f3, f4, f5, f6, f7, f8, f9, f10⟩ := v
    simp only at h
    subst h
    rfl
  | some a =>
    simp [omitemptyPtr, decodeMembers, BotManagement.decodeMember,
      fieldByName_botManagement.2.2.1, decodeStringPtr, Status.andThen]

/-- Decoding the member `sbfm_likely_automated` of the update body into a `BotManagement` that has the field
nil sets the field to what the parameters hold. -/
theorem decodeMembers_sbfm_likely_automated (c : ErrorContext) (o : Option String)
    (v : BotManagement) (h : v.SBFMLikelyAutomated = none) :
    decodeMembers (BotManagement.decodeMember c) (omitemptyPtr "sbfm_likely_automated" Json.string o) v =
      ({ v with SBFMLikelyAutomated := o }, .ok) := by
  cases o with
  | none =>
    obtain ⟨f1, f2, f3, f4, f5, f6, f7, f8, f9, f10⟩ := v
    simp only at h
    subst h
    rfl
  | some a =>
    simp [omitemptyPtr, decodeMembers, BotManagement.decodeMember,
      fieldByName_botManagement.2.2.2.1, decodeStringPtr, Status.andThen]

/-- Decoding the member `sbfm_verified_bots` of the update body into a `BotManagement` that has the field
nil sets the field to what the parameters hold. -/
theorem decodeMembers_sbfm_verified_bots (c : ErrorContext) (o : Option String)
    (v : BotManagement) (h : v.SBFMVerifiedBots = none) :
    decodeMembers (BotManagement.decodeMember c) (omitemptyPtr "sbfm_verified_bots" Json.string o) v =
      ({ v with SBFMVerifiedBots := o }, .ok) := by
  cases o with
  | none =>
    obtain ⟨f1, f2, f3, f4, f5, f6, f7, f8, f9, f10⟩ := v
    simp only at h
    subst h
    rfl
  | some a =>
    simp [omitemptyPtr, decodeMembers, BotManagement.decodeMember,
      fieldByName_botManagement.2.2.2.2.1, decodeStringPtr, Status.andThen]

/-- Decoding the member `sbfm_static_resource_protection` of the update body into a `BotManagement` that has the field
nil sets the field to what the parameters hold. -/
theorem decodeMembers_sbfm_static_resource_protection (c : ErrorContext) (o : Option Bool)
    (v : BotManagement) (h : v.SBFMStaticResourceProtection = none) :
    decodeMembers (BotManagement.decodeMember c) (omitemptyPtr "sbfm_static_resource_protection" Json.bool o) v =
      ({ v with SBFMStaticResourceProtection := o }, .ok) := by
  cases o with
  | none =>
    obtain ⟨f1, f2, f3, f4, f5, f6, f7, f8, f9, f10⟩ := v
    simp only at h
    subst h
    rfl
  | some a =>
    simp [omitemptyPtr, decodeMembers, BotManagement.decodeMember,
      fieldByName_botManagement.2.2.2.2.2.1, decodeBoolPtr, Status.andThen]

/-- Decoding the member `optimize_wordpress` of the update body into a `BotManagement` that has the field
nil sets the field to what the parameters hold. -/
theorem decodeMembers_optimize_wordpress (c : ErrorContext) (o : Option Bool)
    (v : BotManagement) (h : v.OptimizeWordpress = none) :
    decodeMembers (BotManagement.decodeMember c) (omitemptyPtr "optimize_wordpress" Json.bool o) v =
      ({ v with OptimizeWordpress := o }, .ok) := by
  cases o with
  | none =>
    obtain ⟨f1, f2, f3, f4, f5, f6, f7, f8, f9, f10⟩ := v
    simp only at h
    subst h
    rfl
  | some a =>
    simp [omitemptyPtr, decodeMembers, BotManagement.decodeMember,
      fieldByName_botManagement.2.2.2.2.2.2.1, decodeBoolPtr, Status.andThen]

/-- Decoding the member `suppress_session_score` of the update body into a `BotManagement` that has the field
nil sets the field to what the parameters hold. -/
theorem decodeMembers_suppress_session_score (c : ErrorContext) (o : Option Bool)
    (v : BotManagement) (h : v.SuppressSessionScore = none) :
    decodeMembers (BotManagement.decodeMember c) (omitemptyPtr "suppress_session_score" Json.bool o) v =
      ({ v with SuppressSessionScore := o }, .ok) := by
  cases o with
  | none =>
    obtain ⟨f1, f2, f3, f4, f5, f6, f7, f8, f9, f10⟩ := v
    simp only at h
    subst h
    rfl
  | some a =>
    simp [omitemptyPtr, decodeMembers, BotManagement.decodeMember,
      fieldByName_botManagement.2.2.2.2.2.2.2.1, decodeBoolPtr, Status.andThen]

/-- Decoding the member `auto_update_model` of the update body into a `BotManagement` that has the field
nil sets the field to what the parameters hold. -/
theorem decodeMembers_auto_update_model (c : ErrorContext) (o : Option Bool)
    (v : BotManagement) (h : v.AutoUpdateModel = none) :
    decodeMembers (BotManagement.decodeMember c) (omitemptyPtr "auto_update_model" Json.bool o) v =
      ({ v with AutoUpdateModel := o }, .ok) := by
  cases o with
  | none =>
    obtain ⟨f1, f2, f3, f4, f5, f6, f7, f8, f9, f10⟩ := v
    simp only at h
    subst h
    rfl
  | some a =>
    simp [omitemptyPtr, decodeMembers, BotManagement.decodeMember,
      fieldByName_botManagement.2.2.2.2.2.2.2.2, decodeBoolPtr, Status.andThen]

/-- Decoding the encoding of the parameters into a zero `BotManagement` gives their echo. -/
theorem BotManagement_decode_marshal (c : ErrorContext) (p : UpdateBotManagementParams) :
    BotManagement.decode c p.marshal {} = (p.echo, .ok) := by
  simp only [BotManagement.decode, decodeStruct, UpdateBotManagementParams.marshal,
    List.append_assoc]
  rw [decodeMembers_append_of_ok _ _ _ _ _ (decodeMembers_enable_js c p.EnableJS _ rfl),
    decodeMembers_append_of_ok _ _ _ _ _ (decodeMembers_fight_mode c p.FightMode _ rfl),
    decodeMembers_append_of_ok _ _ _ _ _
      (decodeMembers_sbfm_definitely_automated c p.SBFMDefinitelyAutomated _ rfl),
    decodeMembers_append_of_ok _ _ _ _ _
      (decodeMembers_sbfm_likely_automated c p.SBFMLikelyAutomated _ rfl),
    decodeMembers_append_of_ok _ _ _ _ _
      (decodeMembers_sbfm_verified_bots c p.SBFMVerifiedBots _ rfl),
    decodeMembers_append_of_ok _ _ _ _ _
      (decodeMembers_sbfm_static_resource_protection c p.SBFMStaticResourceProtection _ rfl),
    decodeMembers_append_of_ok _ _ _ _ _
      (decodeMembers_optimize_wordpress c p.OptimizeWordpress _ rfl),
    decodeMembers_append_of_ok _ _ _ _ _
      (decodeMembers_suppress_session_score c p.SuppressSessionScore _ rfl),
    decodeMembers_auto_update_model c p.AutoUpdateModel _ rfl]
  rfl

/-- The member names of the success envelope select the envelope fields. -/
theorem fieldByName_botManagementResponse :
    fieldByName botManagementResponseFields "success" = some .Success ∧
    fieldByName botManagementResponseFields "errors" = some .Errors ∧
    fieldByName botManagementResponseFields "messages" = some .Messages ∧
    fieldByName botManagementResponseFields "result" = some .Result := by
  decide

/-- Decoding a success envelope comes down to decoding its `result`. -/
theorem BotManagementResponse_decode_successEnvelope (D : Decls) (r : Json) :
    BotManagementResponse.decode D (successEnvelope r) (BotManagementResponse.zero D) =
      ({ Result := (BotManagement.decode ⟨"BotManagementResponse", ["result"]⟩ r {}).1,
         Response := { Success := true, Errors := [], Messages := [] },
         ResultInfo := D.zeroResultInfo },
        (BotManagement.decode ⟨"BotManagementResponse", ["result"]⟩ r {}).2) := by
  rcases h : BotManagement.decode ⟨"BotManagementResponse", ["result"]⟩ r {} with ⟨bm, s⟩
  have h1 : BotManagement.decode (ErrorContext.field ⟨"", []⟩ "BotManagementResponse" "result")
      r {} = (bm, s) := h
  cases s <;>
  simp [BotManagementResponse.decode, successEnvelope, decodeStruct, decodeMembers,
    BotManagementResponse.decodeMember, fieldByName_botManagementResponse.1,
    fieldByName_botManagementResponse.2.1, fieldByName_botManagementResponse.2.2.1,
    fieldByName_botManagementResponse.2.2.2, Response.decodeField, decodeBool, decodeSlice,
    decodeElems, Status.andThen, BotManagementResponse.zero, Response.zero, h1]

/-- C6: when the transport answers the update with a success envelope whose `result` is the JSON
encoding of the parameters, `UpdateBotManagement` returns a nil error and a `BotManagement`
whose nine optional fields are those of the parameters: a field set to `v` comes back set to
`v`, a nil field comes back nil. -/
theorem update_round_trip (D : Decls) (api : API) (rc : ResourceContainer)
    (p : UpdateBotManagementParams) (body : Bytes)
    (ht : api.transport (expectedPutRequest rc.Identifier p) = .ok body)
    (hb : D.jsonParse body = .ok (successEnvelope p.marshal)) :
    ∃ bm, (UpdateBotManagement D api rc p).exec.1 = (bm, none) ∧
      bm.EnableJS = p.EnableJS ∧ bm.FightMode = p.FightMode ∧
      bm.SBFMDefinitelyAutomated = p.SBFMDefinitelyAutomated ∧
      bm.SBFMLikelyAutomated = p.SBFMLikelyAutomated ∧
      bm.SBFMVerifiedBots = p.SBFMVerifiedBots ∧
      bm.SBFMStaticResourceProtection = p.SBFMStaticResourceProtection ∧
      bm.OptimizeWordpress = p.OptimizeWordpress ∧
      bm.SuppressSessionScore = p.SuppressSessionScore ∧
      bm.AutoUpdateModel = p.AutoUpdateModel ∧
      bm.UsingLatestModel = none := by
  have h2 : unmarshalBotManagementResponse D body =
      ({ Result := p.echo, Response := { Success := true, Errors := [], Messages := [] },
         ResultInfo := D.zeroResultInfo }, none) := by
    simp only [unmarshalBotManagementResponse, jsonDecode, hb,
      BotManagementResponse_decode_successEnvelope, BotManagement_decode_marshal, Status.err]
  refine ⟨p.echo, ?_, rfl, rfl, rfl, rfl, rfl, rfl, rfl, rfl, rfl, rfl⟩
  rw [UpdateBotManagement_of_decoded D api rc p ht h2]

/-- C6 at a concrete input: `enable_js` set to false and `sbfm_likely_automated` set to the
empty string come back as set, and the other fields come back nil. -/
theorem update_round_trip_witness :
    ∃ bm, (UpdateBotManagement exampleDecls
        (fixedAPI (.ok (asciiBytes ("\x7b\"success\": true, \"errors\": [], \"messages\": [], "
          ++ "\"result\": \x7b\"enable_js\": false, \"sbfm_likely_automated\": \"\"\x7d\x7d"))))
        ⟨"023e105f4ecef8ad9ca31a8372d0c353"⟩
        { EnableJS := some false, SBFMLikelyAutomated := some "" }).exec.1 = (bm, none) ∧
      bm.EnableJS = some false ∧ bm.FightMode = none ∧
      bm.SBFMDefinitelyAutomated = none ∧
      bm.SBFMLikelyAutomated = some "" ∧
      bm.SBFMVerifiedBots = none ∧
      bm.SBFMStaticResourceProtection = none ∧
      bm.OptimizeWordpress = none ∧
      bm.SuppressSessionScore = none ∧
      bm.AutoUpdateModel = none ∧
      bm.UsingLatestModel = none :=
  update_round_trip exampleDecls
    (fixedAPI (.ok (asciiBytes ("\x7b\"success\": true, \"errors\": [], \"messages\": [], "
      ++ "\"result\": \x7b\"enable_js\": false, \"sbfm_likely_automated\": \"\"\x7d\x7d"))))
    ⟨"023e105f4ecef8ad9ca31a8372d0c353"⟩
    { EnableJS := some false, SBFMLikelyAutomated := some "" }
    (asciiBytes ("\x7b\"success\": true, \"errors\": [], \"messages\": [], "
      ++ "\"result\": \x7b\"enable_js\": false, \"sbfm_likely_automated\": \"\"\x7d\x7d"))
    rfl (by rfl)

/-- C9: validation comes first and in a fixed order.  An empty `AccountID` makes each of the nine
stream operations return `ErrMissingAccountID` without any event (no transport call, no file
open), whatever the other fields; with `AccountID` set, an empty `VideoID` gives
`ErrMissingVideoID` for the five operations on one video, an empty `URL` gives
`ErrMissingUploadURL`, an empty `FilePath` gives `ErrMissingFilePath`, and a zero
`MaxDurationSeconds` gives `ErrMissingMaxDuration`. -/
theorem stream_validation_order (D : Decls) (api : API) :
    (∀ p : StreamUploadFromURLParameters, p.AccountID = "" →
      (StreamUploadFromURL D api p).exec = ((D.zeroStreamVideo, some D.ErrMissingAccountID), [])) ∧
    (∀ p : StreamUploadFileParameters, p.AccountID = "" →
      (StreamUploadVideoFile D api p).exec =
        ((D.zeroStreamVideo, some D.ErrMissingAccountID), [])) ∧
    (∀ p : StreamCreateVideoParameters, p.AccountID = "" →
      (StreamCreateVideoDirectURL D api p).exec =
        ((D.zeroStreamVideoCreate, some D.ErrMissingAccountID), [])) ∧
    (∀ p : StreamListParameters, p.AccountID = "" →
      (StreamListVideos D api p).exec = (([], some D.ErrMissingAccountID), [])) ∧
    (∀ p : StreamParameters, p.AccountID = "" →
      (StreamGetVideo D api p).exec = ((D.zeroStreamVideo, some D.ErrMissingAccountID), [])) ∧
    (∀ p : StreamParameters, p.AccountID = "" →
      (StreamDeleteVideo D api p).exec = (some D.ErrMissingAccountID, [])) ∧
    (∀ p : StreamParameters, p.AccountID = "" →
      (StreamEmbedHTML D api p).exec = (([], some D.ErrMissingAccountID), [])) ∧
    (∀ p : StreamVideoNFTParameters, p.AccountID = "" →
      (StreamAssociateNFT D api p).exec =
        ((D.zeroStreamVideo, some D.ErrMissingAccountID), [])) ∧
    (∀ p : StreamSignedURLParameters, p.AccountID = "" →
      (StreamCreateSignedURL D api p).exec = (("", some D.ErrMissingAccountID), [])) ∧
    (∀ p : StreamParameters, p.AccountID ≠ "" → p.VideoID = "" →
      (StreamGetVideo D api p).exec = ((D.zeroStreamVideo, some D.ErrMissingVideoID), [])) ∧
    (∀ p : StreamParameters, p.AccountID ≠ "" → p.VideoID = "" →
      (StreamDeleteVideo D api p).exec = (some D.ErrMissingVideoID, [])) ∧
    (∀ p : StreamParameters, p.AccountID ≠ "" → p.VideoID = "" →
      (StreamEmbedHTML D api p).exec = (([], some D.ErrMissingVideoID), [])) ∧
    (∀ p : StreamVideoNFTParameters, p.AccountID ≠ "" → p.VideoID = "" →
      (StreamAssociateNFT D api p).exec = ((D.zeroStreamVideo, some D.ErrMissingVideoID), [])) ∧
    (∀ p : StreamSignedURLParameters, p.AccountID ≠ "" → p.VideoID = "" →
      (StreamCreateSignedURL D api p).exec = (("", some D.ErrMissingVideoID), [])) ∧
    (∀ p : StreamUploadFromURLParameters, p.AccountID ≠ "" → p.URL = "" →
      (StreamUploadFromURL D api p).exec = ((D.zeroStreamVideo, some D.ErrMissingUploadURL), [])) ∧
    (∀ p : StreamUploadFileParameters, p.AccountID ≠ "" → p.FilePath = "" →
      (StreamUploadVideoFile D api p).exec =
        ((D.zeroStreamVideo, some D.ErrMissingFilePath), [])) ∧
    (∀ p : StreamCreateVideoParameters, p.AccountID ≠ "" → p.MaxDurationSeconds = 0 →
      (StreamCreateVideoDirectURL D api p).exec =
        ((D.zeroStreamVideoCreate, some D.ErrMissingMaxDuration), [])) := by
  refine ⟨?_, ?_, ?_, ?_, ?_, ?_, ?_, ?_, ?_, ?_, ?_, ?_, ?_, ?_, ?_, ?_, ?_⟩
  · intro p h
    simp [StreamUploadFromURL, Op.exec, h, StateT.run, pure, StateT.pure]
  · intro p h
    simp [StreamUploadVideoFile, Op.exec, h, StateT.run, pure, StateT.pure]
  · intro p h
    simp [StreamCreateVideoDirectURL, Op.exec, h, StateT.run, pure, StateT.pure]
  · intro p h
    simp [StreamListVideos, Op.exec, h, StateT.run, pure, StateT.pure]
  · intro p h
    simp [StreamGetVideo, Op.exec, h, StateT.run, pure, StateT.pure]
  · intro p h
    simp [StreamDeleteVideo, Op.exec, h, StateT.run, pure, StateT.pure]
  · intro p h
    simp [StreamEmbedHTML, Op.exec, h, StateT.run, pure, StateT.pure]
  · intro p h
    simp [StreamAssociateNFT, Op.exec, h, StateT.run, pure, StateT.pure]
  · intro p h
    simp [StreamCreateSignedURL, Op.exec, h, StateT.run, pure, StateT.pure]
  · intro p ha h
    simp [StreamGetVideo, Op.exec, ha, h, StateT.run, pure, StateT.pure]
  · intro p ha h
    simp [StreamDeleteVideo, Op.exec, ha, h, StateT.run, pure, StateT.pure]
  · intro p ha h
    simp [StreamEmbedHTML, Op.exec, ha, h, StateT.run, pure, StateT.pure]
  · intro p ha h
    simp [StreamAssociateNFT, Op.exec, ha, h, StateT.run, pure, StateT.pure]
  · intro p ha h
    simp [StreamCreateSignedURL, Op.exec, ha, h, StateT.run, pure, StateT.pure]
  · intro p ha h
    simp [StreamUploadFromURL, Op.exec, ha, h, StateT.run, pure, StateT.pure]
  · intro p ha h
    simp [StreamUploadVideoFile, Op.exec, ha, h, StateT.run, pure, StateT.pure]
  · intro p ha h
    simp [StreamCreateVideoDirectURL, Op.exec, ha, h, StateT.run, pure, StateT.pure]

/-- C9 at concrete inputs, those of the tests: empty parameters, then parameters with only the
account identifier set. -/
theorem stream_validation_order_witness :
    (StreamUploadFromURL exampleDecls (fixedAPI (.ok [])) {}).exec =
      (({}, some (.errorString "ErrMissingAccountID")), []) ∧
    (StreamUploadVideoFile exampleDecls (fixedAPI (.ok [])) {}).exec =
      (({}, some (.errorString "ErrMissingAccountID")), []) ∧
    (StreamCreateVideoDirectURL exampleDecls (fixedAPI (.ok [])) {}).exec =
      (((), some (.errorString "ErrMissingAccountID")), []) ∧
    (StreamListVideos exampleDecls (fixedAPI (.ok [])) {}).exec =
      (([], some (.errorString "ErrMissingAccountID")), []) ∧
    (StreamGetVideo exampleDecls (fixedAPI (.ok [])) {}).exec =
      (({}, some (.errorString "ErrMissingAccountID")), []) ∧
    (StreamDeleteVideo exampleDecls (fixedAPI (.ok [])) {}).exec =
      (some (.errorString "ErrMissingAccountID"), []) ∧
    (StreamEmbedHTML exampleDecls (fixedAPI (.ok [])) {}).exec =
      (([], some (.errorString "ErrMissingAccountID")), []) ∧
    (StreamAssociateNFT exampleDecls (fixedAPI (.ok [])) {}).exec =
      (({}, some (.errorString "ErrMissingAccountID")), []) ∧
    (StreamCreateSignedURL exampleDecls (fixedAPI (.ok [])) {}).exec =
      (("", some (.errorString "ErrMissingAccountID")), []) ∧
    (StreamGetVideo exampleDecls (fixedAPI (.ok [])) { AccountID := "abc" }).exec =
      (({}, some (.errorString "ErrMissingVideoID")), []) ∧
    (StreamDeleteVideo exampleDecls (fixedAPI (.ok [])) { AccountID := "abc" }).exec =
      (some (.errorString "ErrMissingVideoID"), []) ∧
    (StreamEmbedHTML exampleDecls (fixedAPI (.ok [])) { AccountID := "abc" }).exec =
      (([], some (.errorString "ErrMissingVideoID")), []) ∧
    (StreamAssociateNFT exampleDecls (fixedAPI (.ok [])) { AccountID := "abc" }).exec =
      (({}, some (.errorString "ErrMissingVideoID")), []) ∧
    (StreamCreateSignedURL exampleDecls (fixedAPI (.ok [])) { AccountID := "abc" }).exec =
      (("", some (.errorString "ErrMissingVideoID")), []) ∧
    (StreamUploadFromURL exampleDecls (fixedAPI (.ok [])) { AccountID := "abc" }).exec =
      (({}, some (.errorString "ErrMissingUploadURL")), []) ∧
    (StreamUploadVideoFile exampleDecls (fixedAPI (.ok [])) { AccountID := "abc" }).exec =
      (({}, some (.errorString "ErrMissingFilePath")), []) ∧
    (StreamCreateVideoDirectURL exampleDecls (fixedAPI (.ok [])) { AccountID := "abc" }).exec =
      (((), some (.errorString "ErrMissingMaxDuration")), []) := by
  obtain ⟨h1, h2, h3, h4, h5, h6, h7, h8, h9, h10, h11, h12, h13, h14, h15, h16, h17⟩ :=
    stream_validation_order exampleDecls (fixedAPI (.ok []))
  exact ⟨h1 {} rfl, h2 {} rfl, h3 {} rfl, h4 {} rfl, h5 {} rfl, h6 {} rfl, h7 {} rfl,
    h8 {} rfl, h9 {} rfl,
    h10 { AccountID := "abc" } (by decide) rfl, h11 { AccountID := "abc" } (by decide) rfl,
    h12 { AccountID := "abc" } (by decide) rfl, h13 { AccountID := "abc" } (by decide) rfl,
    h14 { AccountID := "abc" } (by decide) rfl, h15 { AccountID := "abc" } (by decide) rfl,
    h16 { AccountID := "abc" } (by decide) rfl, h17 { AccountID := "abc" } (by decide) rfl⟩

/-- When a member list is decoded without error, so are its two halves in turn. -/
theorem decodeMembers_append_ok {σ : Type} (step : String → Json → σ → σ × Status)
    (l1 l2 : List (String × Json)) (v v2 : σ)
    (h : decodeMembers step (l1 ++ l2) v = (v2, .ok)) :
    ∃ v1, decodeMembers step l1 v = (v1, .ok) ∧ decodeMembers step l2 v1 = (v2, .ok) := by
  induction l1 generalizing v with
  | nil => exact ⟨v, rfl, h⟩
  | cons kv rest ih =>
    obtain ⟨k, j⟩ := kv
    simp only [List.cons_append, decodeMembers] at h ⊢
    rcases hs : step k j v with ⟨w, s⟩
    rw [hs] at h
    cases s with
    | fatal e => simp at h
    | saved e =>
      simp only [Prod.mk.injEq] at h
      exact absurd (Status.andThen_eq_ok h.2).1 (by simp)
    | ok =>
      simp only [Prod.mk.injEq, Status.andThen] at h
      have h1 : decodeMembers step (rest ++ l2) w = (v2, .ok) := Prod.ext h.1 h.2
      obtain ⟨v1, hv1, hv2⟩ := ih w h1
      refine ⟨v1, ?_, hv2⟩
      simp only [hv1, Status.andThen]

/-- When a member list is decoded without error, so are its first member and the others. -/
theorem decodeMembers_cons_ok {σ : Type} (step : String → Json → σ → σ × Status)
    (k : String) (j : Json) (rest : List (String × Json)) (v v2 : σ)
    (h : decodeMembers step ((k, j) :: rest) v = (v2, .ok)) :
    ∃ v1, step k j v = (v1, .ok) ∧ decodeMembers step rest v1 = (v2, .ok) := by
  simp only [decodeMembers] at h
  rcases hs : step k j v with ⟨w, s⟩
  rw [hs] at h
  cases s with
  | fatal e => simp at h
  | saved e =>
    simp only [Prod.mk.injEq] at h
    exact absurd (Status.andThen_eq_ok h.2).1 (by simp)
  | ok =>
    simp only [Prod.mk.injEq, Status.andThen] at h
    exact ⟨w, rfl, Prod.ext h.1 h.2⟩

/-- A first member decoded without error leaves the decoding of the others. -/
theorem decodeMembers_cons_of_ok {σ : Type} (step : String → Json → σ → σ × Status)
    (k : String) (j : Json) (rest : List (String × Json)) (v v1 : σ)
    (h : step k j v = (v1, .ok)) :
    decodeMembers step ((k, j) :: rest) v = decodeMembers step rest v1 := by
  simp only [decodeMembers, h, Status.andThen]

/-- Whether a `Response` field decodes without error, and to what, does not depend on the name
of the enclosing struct, which only labels type errors. -/
theorem Response_decodeField_ok (D : Decls) (c : ErrorContext) (s1 s2 : String)
    (f : EnvelopeField) (j : Json) (v v1 : Response D)
    (h : Response.decodeField D c s1 f j v = (v1, .ok)) :
    Response.decodeField D c s2 f j v = (v1, .ok) := by
  cases f <;> cases j <;>
    simp_all [Response.decodeField, decodeBool, decodeSlice]

/-- A member of a single-resource envelope that selects a `Response` field. -/
theorem StreamVideoResponse_decodeMember_response (D : Decls) (c : ErrorContext) (k : String)
    (j : Json) (f : EnvelopeField) (hf : fieldByName streamResponseFields k = some f)
    (hne : f ≠ .Result) (v : StreamVideoResponse D) :
    StreamVideoResponse.decodeMember D c k j v =
      ({ v with Response := (Response.decodeField D c "StreamVideoResponse" f j v.Response).1 },
        (Response.decodeField D c "StreamVideoResponse" f j v.Response).2) := by
  unfold StreamVideoResponse.decodeMember
  rw [hf]
  cases f <;> first | exact absurd rfl hne | rfl

/-- A member of a list envelope that selects a `Response` field. -/
theorem StreamListResponse_decodeMember_response (D : Decls) (c : ErrorContext) (k : String)
    (j : Json) (f : EnvelopeField) (hf : fieldByName streamResponseFields k = some f)
    (hne : f ≠ .Result) (v : StreamListResponse D) :
    StreamListResponse.decodeMember D c k j v =
      ({ v with Response := (Response.decodeField D c "StreamListResponse" f j v.Response).1 },
        (Response.decodeField D c "StreamListResponse" f j v.Response).2) := by
  unfold StreamListResponse.decodeMember
  rw [hf]
  cases f <;> first | exact absurd rfl hne | rfl

/-- A member other than `result` does the same to a single-resource envelope and to a list
envelope. -/
theorem stream_member_not_result (D : Decls) (c : ErrorContext) (k : String) (j : Json)
    (hk : fieldByName streamResponseFields k ≠ some .Result)
    (vs vs1 : StreamVideoResponse D) (vl : StreamListResponse D)
    (hr : vs.Response = vl.Response)
    (h : StreamVideoResponse.decodeMember D c k j vs = (vs1, .ok)) :
    ∃ vl1, StreamListResponse.decodeMember D c k j vl = (vl1, .ok) ∧
      vs1.Response = vl1.Response ∧ vs1.Result = vs.Result ∧ vl1.Result = vl.Result := by
  cases hf : fieldByName streamResponseFields k with
  | none =>
    unfold StreamVideoResponse.decodeMember at h
    unfold StreamListResponse.decodeMember
    rw [hf] at h
    simp only [hf, Prod.mk.injEq, and_true] at h ⊢
    subst h
    exact ⟨vl, rfl, hr, rfl, rfl⟩
  | some f =>
    have hne : f ≠ .Result := fun e => hk (by rw [hf, e])
    rw [StreamVideoResponse_decodeMember_response D c k j f hf hne] at h
    rw [StreamListResponse_decodeMember_response D c k j f hf hne]
    simp only [Prod.mk.injEq] at h
    obtain ⟨h1, h2⟩ := h
    rw [hr] at h1 h2
    have h3 := Response_decodeField_ok D c "StreamVideoResponse" "StreamListResponse" f j
      vl.Response _ (Prod.ext rfl h2)
    refine ⟨_, Prod.ext rfl (by rw [h3]), ?_, ?_, rfl⟩
    · rw [← h1, h3]
    · rw [← h1]

/-- Members other than `result` do the same to a single-resource envelope and to a list
envelope. -/
theorem stream_members_not_result (D : Decls) (c : ErrorContext) (ms : List (String × Json))
    (hk : ∀ kv ∈ ms, fieldByName streamResponseFields kv.1 ≠ some .Result)
    (vs vs1 : StreamVideoResponse D) (vl : StreamListResponse D)
    (hr : vs.Response = vl.Response)
    (h : decodeMembers (StreamVideoResponse.decodeMember D c) ms vs = (vs1, .ok)) :
    ∃ vl1, decodeMembers (StreamListResponse.decodeMember D c) ms vl = (vl1, .ok) ∧
      vs1.Response = vl1.Response ∧ vs1.Result = vs.Result ∧ vl1.Result = vl.Result := by
  induction ms generalizing vs vl with
  | nil =>
    simp only [decodeMembers, Prod.mk.injEq, and_true] at h
    subst h
    exact ⟨vl, rfl, hr, rfl, rfl⟩
  | cons kv rest ih =>
    obtain ⟨k, j⟩ := kv
    obtain ⟨w, hw, hrest⟩ := decodeMembers_cons_ok _ k j rest vs vs1 h
    obtain ⟨wl, hwl, e1, e2, e3⟩ :=
      stream_member_not_result D c k j (hk (k, j) (List.mem_cons_self _ _)) vs w vl hr hw
    obtain ⟨vl1, hvl1, e4, e5, e6⟩ :=
      ih (fun kv hm => hk kv (List.mem_cons_of_mem _ hm)) w wl e1 hrest
    refine ⟨vl1, ?_, e4, ?_, ?_⟩
    · rw [decodeMembers_cons_of_ok _ k j rest vl wl hwl, hvl1]
    · rw [e5, e2]
    · rw [e6, e3]

/-- No error returned means no error saved. -/
theorem Status.err_eq_none {s : Status} (h : s.err = none) : s = .ok := by
  cases s <;> simp_all [Status.err]

/-- The three ways `StreamGetVideo` can run once its parameters are valid. -/
theorem StreamGetVideo_exec (D : Decls) (api : API) (options : StreamParameters)
    (h1 : options.AccountID ≠ "") (h2 : options.VideoID ≠ "") :
    (StreamGetVideo D api options).exec =
      match api.transport ⟨"GET", "/accounts/" ++ options.AccountID ++ "/stream/" ++
          options.VideoID, .nil, []⟩ with
      | .error err =>
        ((D.zeroStreamVideo, some err),
          [.transportCall ⟨"GET", "/accounts/" ++ options.AccountID ++ "/stream/" ++
            options.VideoID, .nil, []⟩])
      | .ok res =>
        match jsonDecode D (StreamVideoResponse.decode D) res
            { Response := Response.zero D, Result := D.zeroStreamVideo } with
        | (_, some err) =>
          ((D.zeroStreamVideo, some (Errorf_s_w errUnmarshalError err)),
            [.transportCall ⟨"GET", "/accounts/" ++ options.AccountID ++ "/stream/" ++
              options.VideoID, .nil, []⟩, .jsonUnmarshal res])
        | (r, none) =>
          ((r.Result, none),
            [.transportCall ⟨"GET", "/accounts/" ++ options.AccountID ++ "/stream/" ++
              options.VideoID, .nil, []⟩, .jsonUnmarshal res]) := by
  simp only [StreamGetVideo, streamVideoCall, Op.exec, API.makeRequestContext,
    API.makeRequestContextWithHeaders, emit, MethodGet, jsonUnmarshal, h1, h2, if_false]
  cases h : api.transport ⟨"GET", "/accounts/" ++ options.AccountID ++ "/stream/" ++
      options.VideoID, .nil, []⟩ with
  | error e =>
    simp [h, StateT.run, bind, StateT.bind, modify, modifyGet, MonadStateOf.modifyGet,
      StateT.modifyGet, pure, StateT.pure]
  | ok res =>
    rcases hd : jsonDecode D (StreamVideoResponse.decode D) res
      { Response := Response.zero D, Result := D.zeroStreamVideo } with ⟨resp, _ | e⟩ <;>
    simp [h, hd, StateT.run, bind, StateT.bind, modify, modifyGet, MonadStateOf.modifyGet,
      StateT.modifyGet, pure, StateT.pure]

/-- The three ways `StreamListVideos` can run once its parameters are valid. -/
theorem StreamListVideos_exec (D : Decls) (api : API) (params : StreamListParameters)
    (h1 : params.AccountID ≠ "") :
    (StreamListVideos D api params).exec =
      match api.transport ⟨"GET", "/accounts/" ++ params.AccountID ++ "/stream", .nil, []⟩ with
      | .error err =>
        (([], some err),
          [.transportCall ⟨"GET", "/accounts/" ++ params.AccountID ++ "/stream", .nil, []⟩])
      | .ok res =>
        match jsonDecode D (StreamListResponse.decode D) res
            { Response := Response.zero D, Result := [] } with
        | (_, some err) =>
          (([], some (Errorf_s_w errUnmarshalError err)),
            [.transportCall ⟨"GET", "/accounts/" ++ params.AccountID ++ "/stream", .nil, []⟩,
              .jsonUnmarshal res])
        | (r, none) =>
          ((r.Result, none),
            [.transportCall ⟨"GET", "/accounts/" ++ params.AccountID ++ "/stream", .nil, []⟩,
              .jsonUnmarshal res]) := by
  simp only [StreamListVideos, Op.exec, API.makeRequestContext,
    API.makeRequestContextWithHeaders, emit, MethodGet, jsonUnmarshal, h1, if_false]
  cases h : api.transport ⟨"GET", "/accounts/" ++ params.AccountID ++ "/stream", .nil, []⟩ with
  | error e =>
    simp [h, StateT.run, bind, StateT.bind, modify, modifyGet, MonadStateOf.modifyGet,
      StateT.modifyGet, pure, StateT.pure]
  | ok res =>
    rcases hd : jsonDecode D (StreamListResponse.decode D) res
      { Response := Response.zero D, Result := [] } with ⟨resp, _ | e⟩ <;>
    simp [h, hd, StateT.run, bind, StateT.bind, modify, modifyGet, MonadStateOf.modifyGet,
      StateT.modifyGet, pure, StateT.pure]

/-- The member name `result` selects the `Result` field of a stream envelope. -/
theorem fieldByName_stream_result : fieldByName streamResponseFields "result" = some .Result := by
  decide

/-- Decoding the list envelope around `[o]` follows decoding the single envelope around `o`. -/
theorem stream_envelope_list_of_one (D : Decls) (o : Json) (pre post : List (String × Json))
    (hk : ∀ kv ∈ pre ++ post, fieldByName streamResponseFields kv.1 ≠ some .Result)
    (resp : StreamVideoResponse D)
    (h : StreamVideoResponse.decode D (.object (pre ++ ("result", o) :: post))
      { Response := Response.zero D, Result := D.zeroStreamVideo } = (resp, .ok)) :
    ∃ lr, StreamListResponse.decode D (.object (pre ++ ("result", .array [o]) :: post))
        { Response := Response.zero D, Result := [] } = (lr, .ok) ∧
      lr.Result = [resp.Result] := by
  simp only [StreamVideoResponse.decode, StreamListResponse.decode, decodeStruct] at h ⊢
  obtain ⟨vs1, hpre, hrest⟩ := decodeMembers_append_ok _ pre _ _ _ h
  obtain ⟨vs2, hres, hpost⟩ := decodeMembers_cons_ok _ "result" o post vs1 resp hrest
  obtain ⟨vl1, hlpre, e1, e2, e3⟩ := stream_members_not_result D ⟨"", []⟩ pre
    (fun kv hm => hk kv (List.mem_append_left _ hm)) _ vs1
    { Response := Response.zero D, Result := [] } rfl hpre
  simp only [StreamVideoResponse.decodeMember, fieldByName_stream_result, Prod.mk.injEq] at hres
  obtain ⟨hv2, hs2⟩ := hres
  have hdec : D.unmarshalStreamVideo o D.zeroStreamVideo = (vs2.Result, .ok) := by
    rw [e2] at hv2 hs2
    refine Prod.ext ?_ hs2
    rw [← hv2]
  have hlres : StreamListResponse.decodeMember D ⟨"", []⟩ "result" (.array [o]) vl1 =
      ({ vl1 with Result := [vs2.Result] }, .ok) := by
    simp only [StreamListResponse.decodeMember, fieldByName_stream_result, decodeSlice,
      decodeElems, e3, List.headD_nil, hdec, Status.andThen]
  obtain ⟨vl3, hlpost, e4, e5, e6⟩ := stream_members_not_result D ⟨"", []⟩ post
    (fun kv hm => hk kv (List.mem_append_right _ hm)) vs2 resp
    { vl1 with Result := [vs2.Result] } (by rw [← hv2]; exact e1) hpost
  refine ⟨vl3, ?_, ?_⟩
  · rw [decodeMembers_append_of_ok _ pre _ _ vl1 hlpre,
      decodeMembers_cons_of_ok _ "result" _ post vl1 _ hlres, hlpost]
  · rw [e6, e5]

/-- C10: when the single-resource envelope with `result` member `o` makes `StreamGetVideo`
return the video `v` without error, the list envelope with the same other members and the
`result` member `[o]` makes `StreamListVideos` return the one-element sequence `[v]` without
error. -/
theorem list_of_one_equals_single (D : Decls) (api : API) (g : StreamParameters)
    (l : StreamListParameters) (o : Json) (pre post : List (String × Json))
    (b1 b2 : Bytes) (v : D.StreamVideo)
    (hg1 : g.AccountID ≠ "") (hg2 : g.VideoID ≠ "") (hl : l.AccountID ≠ "")
    (hk : ∀ kv ∈ pre ++ post, fieldByName streamResponseFields kv.1 ≠ some .Result)
    (ht1 : api.transport ⟨"GET", "/accounts/" ++ g.AccountID ++ "/stream/" ++ g.VideoID,
      .nil, []⟩ = .ok b1)
    (hb1 : D.jsonParse b1 = .ok (.object (pre ++ ("result", o) :: post)))
    (ht2 : api.transport ⟨"GET", "/accounts/" ++ l.AccountID ++ "/stream", .nil, []⟩ = .ok b2)
    (hb2 : D.jsonParse b2 = .ok (.object (pre ++ ("result", .array [o]) :: post)))
    (hv : (StreamGetVideo D api g).exec.1 = (v, none)) :
    (StreamListVideos D api l).exec.1 = ([v], none) ∧
      ((StreamListVideos D api l).exec.1.1).length = 1 := by
  rw [StreamGetVideo_exec D api g hg1 hg2, ht1] at hv
  rcases hd : StreamVideoResponse.decode D (.object (pre ++ ("result", o) :: post))
    { Response := Response.zero D, Result := D.zeroStreamVideo } with ⟨resp, s⟩
  simp only [jsonDecode, hb1, hd] at hv
  cases s with
  | saved e => simp [Status.err] at hv
  | fatal e => simp [Status.err] at hv
  | ok =>
    simp only [Status.err, Prod.mk.injEq, and_true] at hv
    obtain ⟨lr, hlr, hres⟩ := stream_envelope_list_of_one D o pre post hk resp hd
    rw [StreamListVideos_exec D api l hl, ht2]
    simp only [jsonDecode, hb2, hlr, Status.err, hres, hv, List.length_singleton, and_self]

set_option maxRecDepth 100000 in
/-- C10 at a concrete input: one video object, served alone under the video's path and as the
only element of the list under the account's path. -/
theorem list_of_one_equals_single_witness :
    (StreamListVideos exampleDecls
        (routedAPI
          [("/accounts/abc/stream/ea95132c15732412d22c1476fa83f27a",
            .ok (asciiBytes ("\x7b\"success\": true, \"errors\": [], \"messages\": [], " ++
              "\"result\": \x7b\"uid\": \"ea95132c15732412d22c1476fa83f27a\", " ++
              "\"readyToStream\": true\x7d\x7d"))),
           ("/accounts/abc/stream",
            .ok (asciiBytes ("\x7b\"success\": true, \"errors\": [], \"messages\": [], " ++
              "\"result\": [\x7b\"uid\": \"ea95132c15732412d22c1476fa83f27a\", " ++
              "\"readyToStream\": true\x7d]\x7d")))])
        { AccountID := "abc" }).exec.1 =
      ([({ UID := "ea95132c15732412d22c1476fa83f27a" } : UidVideo)], none) ∧
    ((StreamListVideos exampleDecls
        (routedAPI
          [("/accounts/abc/stream/ea95132c15732412d22c1476fa83f27a",
            .ok (asciiBytes ("\x7b\"success\": true, \"errors\": [], \"messages\": [], " ++
              "\"result\": \x7b\"uid\": \"ea95132c15732412d22c1476fa83f27a\", " ++
              "\"readyToStream\": true\x7d\x7d"))),
           ("/accounts/abc/stream",
            .ok (asciiBytes ("\x7b\"success\": true, \"errors\": [], \"messages\": [], " ++
              "\"result\": [\x7b\"uid\": \"ea95132c15732412d22c1476fa83f27a\", " ++
              "\"readyToStream\": true\x7d]\x7d")))])
        { AccountID := "abc" }).exec.1.1).length = 1 :=
  list_of_one_equals_single exampleDecls
    (routedAPI
      [("/accounts/abc/stream/ea95132c15732412d22c1476fa83f27a",
        .ok (asciiBytes ("\x7b\"success\": true, \"errors\": [], \"messages\": [], " ++
          "\"result\": \x7b\"uid\": \"ea95132c15732412d22c1476fa83f27a\", " ++
          "\"readyToStream\": true\x7d\x7d"))),
       ("/accounts/abc/stream",
        .ok (asciiBytes ("\x7b\"success\": true, \"errors\": [], \"messages\": [], " ++
          "\"result\": [\x7b\"uid\": \"ea95132c15732412d22c1476fa83f27a\", " ++
          "\"readyToStream\": true\x7d]\x7d")))])
    { AccountID := "abc", VideoID := "ea95132c15732412d22c1476fa83f27a" }
    { AccountID := "abc" }
    (.object [("uid", .string "ea95132c15732412d22c1476fa83f27a"),
      ("readyToStream", .bool true)])
    [("success", .bool true), ("errors", .array []), ("messages", .array [])] []
    (asciiBytes ("\x7b\"success\": true, \"errors\": [], \"messages\": [], " ++
      "\"result\": \x7b\"uid\": \"ea95132c15732412d22c1476fa83f27a\", " ++
      "\"readyToStream\": true\x7d\x7d"))
    (asciiBytes ("\x7b\"success\": true, \"errors\": [], \"messages\": [], " ++
      "\"result\": [\x7b\"uid\": \"ea95132c15732412d22c1476fa83f27a\", " ++
      "\"readyToStream\": true\x7d]\x7d"))
    ({ UID := "ea95132c15732412d22c1476fa83f27a" } : UidVideo)
    (by decide) (by decide) (by decide) (by decide) rfl (by rfl) rfl (by rfl) (by rfl)

/-- C11: with a non-empty account and video identifier, whatever body the transport answers with
on its success path comes back from `StreamEmbedHTML` unchanged, with a nil error, after one GET
of the embed path and without any `json.Unmarshal` call. -/
theorem embed_html_raw_body (D : Decls) (api : API) (options : StreamParameters) (b : Bytes)
    (h1 : options.AccountID ≠ "") (h2 : options.VideoID ≠ "")
    (ht : api.transport ⟨"GET", "/accounts/" ++ options.AccountID ++ "/stream/" ++
      options.VideoID ++ "/embed", .nil, []⟩ = .ok b) :
    (StreamEmbedHTML D api options).exec.1 = (b, none) ∧
    transportCalls (StreamEmbedHTML D api options).exec.2 =
      [⟨"GET", "/accounts/" ++ options.AccountID ++ "/stream/" ++ options.VideoID ++ "/embed",
        .nil, []⟩] ∧
    unmarshalCalls (StreamEmbedHTML D api options).exec.2 = [] := by
  simp [StreamEmbedHTML, Op.exec, API.makeRequestContext, API.makeRequestContextWithHeaders,
    emit, MethodGet, h1, h2, ht, StateT.run, bind, StateT.bind, modify, modifyGet,
    MonadStateOf.modifyGet, StateT.modifyGet, pure, StateT.pure, transportCalls, unmarshalCalls]

/-- C11 at a concrete input: an HTML body, which the text layer rejects as JSON, is returned as
it is. -/
theorem embed_html_raw_body_witness :
    readJson (asciiBytes "<stream id=\"ea95132c15732412d22c1476fa83f27a\"></stream>") =
      .error (.errorString "invalid character looking for beginning of value") ∧
    (StreamEmbedHTML exampleDecls
        (fixedAPI (.ok (asciiBytes "<stream id=\"ea95132c15732412d22c1476fa83f27a\"></stream>")))
        { AccountID := "abc", VideoID := "ea95132c15732412d22c1476fa83f27a" }).exec.1 =
      (asciiBytes "<stream id=\"ea95132c15732412d22c1476fa83f27a\"></stream>", none) ∧
    transportCalls (StreamEmbedHTML exampleDecls
        (fixedAPI (.ok (asciiBytes "<stream id=\"ea95132c15732412d22c1476fa83f27a\"></stream>")))
        { AccountID := "abc", VideoID := "ea95132c15732412d22c1476fa83f27a" }).exec.2 =
      [⟨"GET", "/accounts/abc/stream/ea95132c15732412d22c1476fa83f27a/embed", .nil, []⟩] ∧
    unmarshalCalls (StreamEmbedHTML exampleDecls
        (fixedAPI (.ok (asciiBytes "<stream id=\"ea95132c15732412d22c1476fa83f27a\"></stream>")))
        { AccountID := "abc", VideoID := "ea95132c15732412d22c1476fa83f27a" }).exec.2 = [] :=
  ⟨by rfl,
    embed_html_raw_body exampleDecls
      (fixedAPI (.ok (asciiBytes "<stream id=\"ea95132c15732412d22c1476fa83f27a\"></stream>")))
      { AccountID := "abc", VideoID := "ea95132c15732412d22c1476fa83f27a" }
      (asciiBytes "<stream id=\"ea95132c15732412d22c1476fa83f27a\"></stream>")
      (by decide) (by decide) rfl⟩

/-- C12: the envelope's `success` flag plays no part.  Whenever the transport answers with a body
that `json.Unmarshal` accepts for the envelope, whatever the `Response` part of the decoded
envelope holds, both operations return a nil error with the decoded `Result` (and
`ResultInfo`); and the error returned is nil exactly when the transport call succeeded and
`json.Unmarshal` returned no error. -/
theorem botManagement_ignores_success_flag (D : Decls) (api : API) (rc : ResourceContainer)
    (params : UpdateBotManagementParams) :
    (∀ body resp, api.transport (expectedGetRequest rc.Identifier) = .ok body →
      unmarshalBotManagementResponse D body = (resp, none) →
      (GetBotManagement D api rc).exec.1 = (resp.Result, resp.ResultInfo, none)) ∧
    ((GetBotManagement D api rc).exec.1.2.2 = none ↔
      ∃ body, api.transport (expectedGetRequest rc.Identifier) = .ok body ∧
        (unmarshalBotManagementResponse D body).2 = none) ∧
    (∀ body resp, api.transport (expectedPutRequest rc.Identifier params) = .ok body →
      unmarshalBotManagementResponse D body = (resp, none) →
      (UpdateBotManagement D api rc params).exec.1 = (resp.Result, none)) ∧
    ((UpdateBotManagement D api rc params).exec.1.2 = none ↔
      ∃ body, api.transport (expectedPutRequest rc.Identifier params) = .ok body ∧
        (unmarshalBotManagementResponse D body).2 = none) := by
  refine ⟨?_, ?_, ?_, ?_⟩
  · intro body resp ht hd
    rw [GetBotManagement_of_decoded D api rc ht hd]
  · cases h : api.transport (expectedGetRequest rc.Identifier) with
    | error e =>
      rw [GetBotManagement_of_transport_error D api rc h]
      simp
    | ok res =>
      rcases h2 : unmarshalBotManagementResponse D res with ⟨resp, _ | e⟩
      · rw [GetBotManagement_of_decoded D api rc h h2]
        simp [h2]
      · rw [GetBotManagement_of_decode_error D api rc h h2]
        simp [h2]
  · intro body resp ht hd
    rw [UpdateBotManagement_of_decoded D api rc params ht hd]
  · cases h : api.transport (expectedPutRequest rc.Identifier params) with
    | error e =>
      rw [UpdateBotManagement_of_transport_error D api rc params h]
      simp
    | ok res =>
      rcases h2 : unmarshalBotManagementResponse D res with ⟨resp, _ | e⟩
      · rw [UpdateBotManagement_of_decoded D api rc params h h2]
        simp [h2]
      · rw [UpdateBotManagement_of_decode_error D api rc params h h2]
        simp [h2]

set_option maxRecDepth 100000 in
/-- C12 at a concrete input: an envelope with `success` false and one entry in `errors` still
gives a nil error and the decoded `result`. -/
theorem botManagement_ignores_success_flag_witness :
    (unmarshalBotManagementResponse exampleDecls
        (asciiBytes ("\x7b\"success\": false, \"errors\": [\x7b\"code\": 1000\x7d], " ++
          "\"messages\": [], \"result\": \x7b\"fight_mode\": true\x7d\x7d"))).1.Response.Success
      = false ∧
    (unmarshalBotManagementResponse exampleDecls
        (asciiBytes ("\x7b\"success\": false, \"errors\": [\x7b\"code\": 1000\x7d], " ++
          "\"messages\": [], \"result\": \x7b\"fight_mode\": true\x7d\x7d"))).1.Response.Errors
      = [()] ∧
    (GetBotManagement exampleDecls
        (fixedAPI (.ok (asciiBytes ("\x7b\"success\": false, \"errors\": [\x7b\"code\": 1000\x7d], "
          ++ "\"messages\": [], \"result\": \x7b\"fight_mode\": true\x7d\x7d"))))
        ⟨"023e105f4ecef8ad9ca31a8372d0c353"⟩).exec.1 = ({ FightMode := some true }, (), none) ∧
    (GetBotManagement exampleDecls
        (fixedAPI (.ok (asciiBytes ("\x7b\"success\": false, \"errors\": [\x7b\"code\": 1000\x7d], "
          ++ "\"messages\": [], \"result\": \x7b\"fight_mode\": true\x7d\x7d"))))
        ⟨"023e105f4ecef8ad9ca31a8372d0c353"⟩).exec.1.2.2 = none ∧
    (UpdateBotManagement exampleDecls
        (fixedAPI (.ok (asciiBytes ("\x7b\"success\": false, \"errors\": [\x7b\"code\": 1000\x7d], "
          ++ "\"messages\": [], \"result\": \x7b\"fight_mode\": true\x7d\x7d"))))
        ⟨"023e105f4ecef8ad9ca31a8372d0c353"⟩ { FightMode := some true }).exec.1
      = ({ FightMode := some true }, none) ∧
    (UpdateBotManagement exampleDecls
        (fixedAPI (.ok (asciiBytes ("\x7b\"success\": false, \"errors\": [\x7b\"code\": 1000\x7d], "
          ++ "\"messages\": [], \"result\": \x7b\"fight_mode\": true\x7d\x7d"))))
        ⟨"023e105f4ecef8ad9ca31a8372d0c353"⟩ { FightMode := some true }).exec.1.2 = none :=
  have h := botManagement_ignores_success_flag exampleDecls
    (fixedAPI (.ok (asciiBytes ("\x7b\"success\": false, \"errors\": [\x7b\"code\": 1000\x7d], "
      ++ "\"messages\": [], \"result\": \x7b\"fight_mode\": true\x7d\x7d"))))
    ⟨"023e105f4ecef8ad9ca31a8372d0c353"⟩ { FightMode := some true }
  ⟨by rfl, by rfl,
    h.1 _ { Result := { FightMode := some true },
            Response := { Success := false, Errors := [()], Messages := [] },
            ResultInfo := () } rfl (by rfl),
    h.2.1.mpr ⟨_, rfl, by rfl⟩,
    h.2.2.1 _ { Result := { FightMode := some true },
                Response := { Success := false, Errors := [()], Messages := [] },
                ResultInfo := () } rfl (by rfl),
    h.2.2.2.mpr ⟨_, rfl, by rfl⟩⟩

end Cloudflare
